/-
Verification of the Animation-Streamer preprocessing pipeline
(scripts/preprocess_lipsync.py and scripts/detect_mouth_positions.py).

Shallow embedding conventions:
* Python floats are modelled as exact rationals (ℚ); float literals such as
  0.1 are taken at face value, and `np.pi` is the IEEE-754 double closest
  to pi.
* Images and masks are total functions from integer pixel coordinates
  (row, column) to rationals; sizes are passed explicitly where the numpy
  code uses array shapes.
* Library primitives whose pointwise values are irrational (math.cos,
  math.sin, np.sqrt, cv2 colour conversions, Gaussian kernel weights) are
  collected in a `CvPrims` parameter structure; everything built on top of
  them is an explicit computable function of that parameter.
* `cv2.getPerspectiveTransform` is modelled as the exact solution of the
  standard 8x8 linear system from 4 point correspondences, failing
  (cv2.error) exactly when that system is singular.
-/
import Mathlib

set_option maxHeartbeats 4000000
set_option maxRecDepth 4000

/-- A mouth position record: the five tracked scalar fields together with
the detection confidence (`positions` entries in the Python scripts; the
untouched bookkeeping fields frameIndex/timeSeconds are omitted). -/
structure MouthPos where
  centerX : ℚ
  centerY : ℚ
  width : ℚ
  height : ℚ
  rotation : ℚ
  confidence : ℚ
deriving DecidableEq, Repr, Inhabited

/-- Indices of records with positive confidence, in increasing order
(`valid_indices` in both scripts). -/
def validIndices (ps : List MouthPos) : List ℕ :=
  (List.range ps.length).filter (fun i => decide (0 < (ps.getD i default).confidence))

/-- The scan of `interpolate_invalid_positions` over the ascending
valid-index list: the running previous index is overwritten by every
element below `i`, and the loop breaks at the first element above `i`. -/
def scanPN (i : ℕ) : List ℕ → Option ℕ × Option ℕ
  | [] => (none, none)
  | v :: vs =>
    if v < i then
      let r := scanPN i vs
      (some (r.1.getD v), r.2)
    else if i < v then (none, some v)
    else scanPN i vs

/-- Linear interpolation `v0 + t * (v1 - v0)`. -/
def lerpQ (v0 v1 t : ℚ) : ℚ := v0 + t * (v1 - v0)

/-- The record produced for index `i` by `interpolate_invalid_positions`:
valid records are kept, invalid ones are filled from the neighbouring
valid records found by the scan. -/
def interpOne (ps : List MouthPos) (i : ℕ) : MouthPos :=
  let p := ps.getD i default
  if 0 < p.confidence then p
  else
    match scanPN i (validIndices ps) with
    | (some pv, some nx) =>
      let q0 := ps.getD pv default
      let q1 := ps.getD nx default
      let t : ℚ := ((i : ℚ) - (pv : ℚ)) / ((nx : ℚ) - (pv : ℚ))
      { centerX := lerpQ q0.centerX q1.centerX t
        centerY := lerpQ q0.centerY q1.centerY t
        width := lerpQ q0.width q1.width t
        height := lerpQ q0.height q1.height t
        rotation := lerpQ q0.rotation q1.rotation t
        confidence := 1/2 }
    | (some pv, none) => { ps.getD pv default with confidence := 3/10 }
    | (none, some nx) => { ps.getD nx default with confidence := 3/10 }
    | (none, none) => p

/-- `interpolate_invalid_positions` (identical in both scripts): if no
record has positive confidence the list is returned unchanged, otherwise
every index is rebuilt by `interpOne`. -/
def interpolate (ps : List MouthPos) : List MouthPos :=
  if validIndices ps = [] then ps
  else (List.range ps.length).map (interpOne ps)

/-- The nearest valid index strictly before `i` (specification-side
description: the greatest element of the valid-index list below `i`). -/
def prevValid (ps : List MouthPos) (i : ℕ) : Option ℕ :=
  ((validIndices ps).filter (fun j => decide (j < i))).getLast?

/-- The nearest valid index strictly after `i` (specification-side
description: the least element of the valid-index list above `i`). -/
def nextValid (ps : List MouthPos) (i : ℕ) : Option ℕ :=
  ((validIndices ps).filter (fun j => decide (i < j))).head?

lemma getLast?_cons {α : Type} (v : α) (t : List α) :
    (v :: t).getLast? = some (t.getLast?.getD v) := by
  induction t generalizing v with
  | nil => rfl
  | cons h r ih =>
    rw [List.getLast?_cons_cons, ih h]
    rfl

lemma scanPN_eq (i : ℕ) (l : List ℕ) (hl : l.Pairwise (· < ·)) :
    scanPN i l = ((l.filter (fun j => decide (j < i))).getLast?,
                  (l.filter (fun j => decide (i < j))).head?) := by
  induction l with
  | nil => rfl
  | cons v vs ih =>
    have hp := List.pairwise_cons.mp hl
    rcases lt_trichotomy v i with hvi | hvi | hvi
    · have h2 : ¬ i < v := by omega
      rw [scanPN]
      simp only [if_pos hvi]
      rw [ih hp.2]
      simp only [List.filter_cons, decide_eq_true_eq]
      rw [if_pos (by simpa using hvi), if_neg (by simpa using h2)]
      rw [getLast?_cons]
    · subst hvi
      rw [scanPN]
      simp only [if_neg (lt_irrefl v), ih hp.2]
      simp only [List.filter_cons, decide_eq_true_eq]
      rw [if_neg (by simp), if_neg (by simp)]
    · have h2 : ¬ v < i := by omega
      rw [scanPN]
      simp only [if_neg h2, if_pos hvi]
      simp only [List.filter_cons, decide_eq_true_eq]
      rw [if_neg (by simpa using h2), if_pos (by simpa using hvi)]
      have hnil : vs.filter (fun j => decide (j < i)) = [] := by
        apply List.filter_eq_nil_iff.mpr
        intro j hj
        have := hp.1 j hj
        simp only [decide_eq_true_eq]
        omega
      simp [hnil]

lemma validIndices_pairwise (ps : List MouthPos) :
    (validIndices ps).Pairwise (· < ·) :=
  List.Pairwise.filter _ (List.pairwise_lt_range _)

lemma mem_validIndices (ps : List MouthPos) (i : ℕ) :
    i ∈ validIndices ps ↔ i < ps.length ∧ 0 < (ps.getD i default).confidence := by
  simp [validIndices, List.mem_filter]

lemma interpolate_getD (ps : List MouthPos) (i : ℕ) (hi : i < ps.length)
    (hv : validIndices ps ≠ []) :
    (interpolate ps).getD i default = interpOne ps i := by
  rw [interpolate, if_neg hv]
  simp [List.getD, List.get?_eq_getElem?, List.getElem?_map, List.getElem?_range hi]

lemma interpolate_length (ps : List MouthPos) :
    (interpolate ps).length = ps.length := by
  rw [interpolate]
  split
  · rfl
  · rw [List.length_map, List.length_range]

/-- C4: for every position list, interpolation keeps valid records
unchanged, returns an all-invalid list unchanged, and fills each invalid
record from the nearest valid neighbours: linear interpolation of the five
tracked fields with confidence 1/2 when both neighbours exist, a copy with
confidence 3/10 when only one side exists. -/
theorem interpolate_invalid_positions_spec (ps : List MouthPos) :
    (interpolate ps).length = ps.length ∧
    (∀ i, i < ps.length → 0 < (ps.getD i default).confidence →
      (interpolate ps).getD i default = ps.getD i default) ∧
    ((∀ p ∈ ps, p.confidence ≤ 0) → interpolate ps = ps) ∧
    (∀ i pv nx, i < ps.length → (ps.getD i default).confidence ≤ 0 →
      prevValid ps i = some pv → nextValid ps i = some nx →
      (interpolate ps).getD i default =
        { centerX := lerpQ (ps.getD pv default).centerX (ps.getD nx default).centerX
            (((i : ℚ) - (pv : ℚ)) / ((nx : ℚ) - (pv : ℚ)))
          centerY := lerpQ (ps.getD pv default).centerY (ps.getD nx default).centerY
            (((i : ℚ) - (pv : ℚ)) / ((nx : ℚ) - (pv : ℚ)))
          width := lerpQ (ps.getD pv default).width (ps.getD nx default).width
            (((i : ℚ) - (pv : ℚ)) / ((nx : ℚ) - (pv : ℚ)))
          height := lerpQ (ps.getD pv default).height (ps.getD nx default).height
            (((i : ℚ) - (pv : ℚ)) / ((nx : ℚ) - (pv : ℚ)))
          rotation := lerpQ (ps.getD pv default).rotation (ps.getD nx default).rotation
            (((i : ℚ) - (pv : ℚ)) / ((nx : ℚ) - (pv : ℚ)))
          confidence := 1/2 }) ∧
    (∀ i pv, i < ps.length → (ps.getD i default).confidence ≤ 0 →
      prevValid ps i = some pv → nextValid ps i = none →
      (interpolate ps).getD i default = { ps.getD pv default with confidence := 3/10 }) ∧
    (∀ i nx, i < ps.length → (ps.getD i default).confidence ≤ 0 →
      prevValid ps i = none → nextValid ps i = some nx →
      (interpolate ps).getD i default = { ps.getD nx default with confidence := 3/10 }) := by
  refine ⟨interpolate_length ps, ?_, ?_, ?_, ?_, ?_⟩
  · intro i hi hc
    by_cases hv : validIndices ps = []
    · rw [interpolate, if_pos hv]
    · rw [interpolate_getD ps i hi hv, interpOne, if_pos hc]
  · intro hall
    have hv : validIndices ps = [] := by
      apply List.filter_eq_nil_iff.mpr
      intro j hj
      have hlt := List.mem_range.mp hj
      have hmem : ps.getD j default ∈ ps := by
        rw [List.getD_eq_getElem ps default hlt]
        exact List.getElem_mem hlt
      have := hall _ hmem
      simp only [decide_eq_true_eq]
      exact not_lt.mpr this
    rw [interpolate, if_pos hv]
  · intro i pv nx hi hc hpv hnx
    have hv : validIndices ps ≠ [] := by
      intro h
      rw [prevValid, h] at hpv
      simp at hpv
    rw [interpolate_getD ps i hi hv, interpOne, if_neg (not_lt.mpr hc)]
    rw [scanPN_eq i _ (validIndices_pairwise ps)]
    rw [prevValid] at hpv
    rw [nextValid] at hnx
    rw [hpv, hnx]
  · intro i pv hi hc hpv hnx
    have hv : validIndices ps ≠ [] := by
      intro h
      rw [prevValid, h] at hpv
      simp at hpv
    rw [interpolate_getD ps i hi hv, interpOne, if_neg (not_lt.mpr hc)]
    rw [scanPN_eq i _ (validIndices_pairwise ps)]
    rw [prevValid] at hpv
    rw [nextValid] at hnx
    rw [hpv, hnx]
  · intro i nx hi hc hpv hnx
    have hv : validIndices ps ≠ [] := by
      intro h
      rw [nextValid, h] at hnx
      simp at hnx
    rw [interpolate_getD ps i hi hv, interpOne, if_neg (not_lt.mpr hc)]
    rw [scanPN_eq i _ (validIndices_pairwise ps)]
    rw [prevValid] at hpv
    rw [nextValid] at hnx
    rw [hpv, hnx]

/-- Concrete list with confidence pattern [1,0,0,1] used as witness. -/
def ps4ex : List MouthPos :=
  [⟨0, 0, 0, 0, 0, 1⟩, ⟨7, 7, 7, 7, 7, 0⟩, ⟨9, 9, 9, 9, 9, 0⟩, ⟨3, 6, 9, 12, 15, 1⟩]

theorem interpolate_invalid_positions_spec_witness :
    (interpolate ps4ex).getD 1 default = ⟨1, 2, 3, 4, 5, 1/2⟩ ∧
    (interpolate ps4ex).getD 2 default = ⟨2, 4, 6, 8, 10, 1/2⟩ := by
  constructor
  · have h := (interpolate_invalid_positions_spec ps4ex).2.2.2.1 1 0 3
      (by decide) (by decide) (by decide) (by decide)
    rw [h]
    simp only [ps4ex, lerpQ, MouthPos.mk.injEq, List.getD_cons_zero, List.getD_cons_succ]
    norm_num
  · have h := (interpolate_invalid_positions_spec ps4ex).2.2.2.1 2 0 3
      (by decide) (by decide) (by decide) (by decide)
    rw [h]
    simp only [ps4ex, lerpQ, MouthPos.mk.injEq, List.getD_cons_zero, List.getD_cons_succ]
    norm_num

/-- The IEEE-754 double closest to pi, the value of `np.pi`. -/
def piQ : ℚ := 884279719003555 / 281474976710656

/-- `one_pole_beta`: the EMA coefficient dt/(rc+dt) with rc = 1/(2*pi*cutoff)
and dt = 1/fps, or 0 when cutoff or fps is nonpositive. -/
def onePoleBeta (cutoffHz fps : ℚ) : ℚ :=
  if cutoffHz ≤ 0 ∨ fps ≤ 0 then 0
  else (1 / fps) / (1 / (2 * piQ * cutoffHz) + 1 / fps)

/-- The recursive tail of a forward exponential moving average with
coefficient `beta` and previous output `prev`. -/
def emaGo (beta prev : ℚ) : List ℚ → List ℚ
  | [] => []
  | y :: ys => (beta * y + (1 - beta) * prev) :: emaGo beta (beta * y + (1 - beta) * prev) ys

/-- Forward EMA seeded with the first element (the `forward` loop of
`smooth_positions_zero_phase`). -/
def emaForward (beta : ℚ) : List ℚ → List ℚ
  | [] => []
  | x :: xs => x :: emaGo beta x xs

/-- Backward EMA over a list, seeded with its last element (the `backward`
loop of `smooth_positions_zero_phase`): a forward EMA over the reversed
list, reversed back. -/
def emaBackward (beta : ℚ) (l : List ℚ) : List ℚ :=
  (emaForward beta l.reverse).reverse

/-- The write-back loop `for j, idx in enumerate(valid_indices):
smoothed[idx][key] = backward[j]`. -/
def writeBack (set : MouthPos → ℚ → MouthPos) (vis : List ℕ) (vals : List ℚ)
    (acc : List MouthPos) : List MouthPos :=
  (vis.zip vals).foldl (fun acc2 jv => acc2.set jv.1 (set (acc2.getD jv.1 default) jv.2)) acc

/-- The full smoothed value list for one tracked field: forward EMA over
the valid-indexed subsequence, then backward EMA over the forward output. -/
def smoothedVals (beta : ℚ) (ps : List MouthPos) (vis : List ℕ) (get : MouthPos → ℚ) :
    List ℚ :=
  emaBackward beta (emaForward beta (vis.map (fun i => get (ps.getD i default))))

/-- One iteration of the `for key in keys` loop of
`smooth_positions_zero_phase`: smooth one field of the original positions
and write the results back into the accumulator list. -/
def smoothKey (beta : ℚ) (ps : List MouthPos) (vis : List ℕ) (get : MouthPos → ℚ)
    (set : MouthPos → ℚ → MouthPos) (acc : List MouthPos) : List MouthPos :=
  writeBack set vis (smoothedVals beta ps vis get) acc

/-- `smooth_positions_zero_phase`: zero-phase EMA smoothing of the five
tracked fields over the positive-confidence subsequence. -/
def smoothPositionsZeroPhase (ps : List MouthPos) (fps : ℚ) (cutoffHz : ℚ) :
    List MouthPos :=
  if ps.length < 2 ∨ cutoffHz ≤ 0 then ps
  else if onePoleBeta cutoffHz fps ≤ 0 ∨ 1 ≤ onePoleBeta cutoffHz fps then ps
  else if (validIndices ps).length < 2 then ps
  else
    smoothKey (onePoleBeta cutoffHz fps) ps (validIndices ps)
      (fun p => p.rotation) (fun p v => { p with rotation := v })
      (smoothKey (onePoleBeta cutoffHz fps) ps (validIndices ps)
        (fun p => p.height) (fun p v => { p with height := v })
        (smoothKey (onePoleBeta cutoffHz fps) ps (validIndices ps)
          (fun p => p.width) (fun p v => { p with width := v })
          (smoothKey (onePoleBeta cutoffHz fps) ps (validIndices ps)
            (fun p => p.centerY) (fun p v => { p with centerY := v })
            (smoothKey (onePoleBeta cutoffHz fps) ps (validIndices ps)
              (fun p => p.centerX) (fun p v => { p with centerX := v })
              ps))))

lemma writeBack_length (set : MouthPos → ℚ → MouthPos) (vis : List ℕ) (vals : List ℚ)
    (acc : List MouthPos) : (writeBack set vis vals acc).length = acc.length := by
  rw [writeBack]
  generalize vis.zip vals = l
  induction l generalizing acc with
  | nil => rfl
  | cons h t ih => rw [List.foldl_cons, ih, List.length_set]

lemma writeBack_getD_not_mem (set : MouthPos → ℚ → MouthPos) (vis : List ℕ)
    (vals : List ℚ) (acc : List MouthPos) (i : ℕ) (hi : i ∉ vis) :
    (writeBack set vis vals acc).getD i default = acc.getD i default := by
  induction vis generalizing vals acc with
  | nil => rfl
  | cons v vs ih =>
    cases vals with
    | nil => rfl
    | cons w ws =>
      rw [writeBack, List.zip_cons_cons, List.foldl_cons]
      have hne : i ≠ v := fun h => hi (h ▸ List.mem_cons_self v vs)
      have hvs : i ∉ vs := fun h => hi (List.mem_cons_of_mem v h)
      rw [← writeBack, ih ws _ hvs]
      rcases lt_or_ge v acc.length with hlt | hge
      · simp [List.getD, List.get?_eq_getElem?, List.getElem?_set_ne (Ne.symm hne)]
      · rw [List.set_eq_of_length_le (by omega)]

lemma writeBack_getD_mem (set : MouthPos → ℚ → MouthPos) (vis : List ℕ)
    (vals : List ℚ) (acc : List MouthPos) (i : ℕ) (hnd : vis.Nodup)
    (hi : i ∈ vis) (hlen : i < acc.length) (hv : vis.length ≤ vals.length) :
    (writeBack set vis vals acc).getD i default =
      set (acc.getD i default) (vals.getD (vis.indexOf i) 0) := by
  induction vis generalizing vals acc with
  | nil => exact absurd hi (List.not_mem_nil i)
  | cons v vs ih =>
    cases vals with
    | nil => simp at hv
    | cons w ws =>
      rw [writeBack, List.zip_cons_cons, List.foldl_cons, ← writeBack]
      by_cases hiv : i = v
      · subst hiv
        have hnin : i ∉ vs := (List.nodup_cons.mp hnd).1
        rw [writeBack_getD_not_mem set vs ws _ i hnin]
        simp [List.getD, List.get?_eq_getElem?, List.getElem?_set_self, hlen,
          List.indexOf_cons_self]
      · have hmem : i ∈ vs := by
          rcases List.mem_cons.mp hi with h | h
          · exact absurd h hiv
          · exact h
        rw [ih ws _ (List.nodup_cons.mp hnd).2 hmem (by rw [List.length_set]; exact hlen)
          (by simpa using Nat.le_of_succ_le_succ hv)]
        have hgd : (acc.set v (set (acc.getD v default) w)).getD i default =
            acc.getD i default := by
          rcases lt_or_ge v acc.length with hlt | hge
          · simp [List.getD, List.get?_eq_getElem?, List.getElem?_set_ne (Ne.symm hiv)]
          · rw [List.set_eq_of_length_le (by omega)]
        rw [hgd, List.indexOf_cons_ne _ (fun h => hiv h.symm)]
        rfl

lemma emaGo_length (beta prev : ℚ) (l : List ℚ) : (emaGo beta prev l).length = l.length := by
  induction l generalizing prev with
  | nil => rfl
  | cons y ys ih => rw [emaGo, List.length_cons, List.length_cons, ih]

lemma emaForward_length (beta : ℚ) (l : List ℚ) : (emaForward beta l).length = l.length := by
  cases l with
  | nil => rfl
  | cons x xs => rw [emaForward, List.length_cons, List.length_cons, emaGo_length]

lemma smoothedVals_length (beta : ℚ) (ps : List MouthPos) (vis : List ℕ)
    (get : MouthPos → ℚ) : (smoothedVals beta ps vis get).length = vis.length := by
  rw [smoothedVals, emaBackward, List.length_reverse, emaForward_length,
    List.length_reverse, emaForward_length, List.length_map]

lemma validIndices_nodup (ps : List MouthPos) : (validIndices ps).Nodup :=
  (validIndices_pairwise ps).imp ne_of_lt

lemma validIndices_length_le (ps : List MouthPos) :
    (validIndices ps).length ≤ ps.length := by
  calc (validIndices ps).length ≤ (List.range ps.length).length :=
        List.length_filter_le _ _
    _ = ps.length := List.length_range _

lemma smoothKey_getD_mem (beta : ℚ) (ps : List MouthPos) (get : MouthPos → ℚ)
    (set : MouthPos → ℚ → MouthPos) (acc : List MouthPos) (i : ℕ)
    (hi : i ∈ validIndices ps) (hlen : i < acc.length) :
    (smoothKey beta ps (validIndices ps) get set acc).getD i default =
      set (acc.getD i default)
        ((smoothedVals beta ps (validIndices ps) get).getD ((validIndices ps).indexOf i) 0) :=
  writeBack_getD_mem set _ _ acc i (validIndices_nodup ps) hi hlen
    (le_of_eq (smoothedVals_length beta ps _ get).symm)

lemma smoothKey_getD_not_mem (beta : ℚ) (ps : List MouthPos) (get : MouthPos → ℚ)
    (set : MouthPos → ℚ → MouthPos) (acc : List MouthPos) (i : ℕ)
    (hi : i ∉ validIndices ps) :
    (smoothKey beta ps (validIndices ps) get set acc).getD i default = acc.getD i default :=
  writeBack_getD_not_mem set _ _ acc i hi

lemma smoothKey_length (beta : ℚ) (ps : List MouthPos) (vis : List ℕ)
    (get : MouthPos → ℚ) (set : MouthPos → ℚ → MouthPos) (acc : List MouthPos) :
    (smoothKey beta ps vis get set acc).length = acc.length :=
  writeBack_length set vis _ acc

/-- C5: zero-phase smoothing computes beta = dt/(rc+dt) with
rc = 1/(2*pi*cutoff) and dt = 1/fps, is the identity whenever cutoff <= 0,
fps <= 0, beta lies outside (0,1), or fewer than 2 records have positive
confidence, and otherwise smooths each of the five tracked fields
independently over the positive-confidence subsequence by a forward EMA
followed by a backward EMA, writing the result back into exactly those
indices and leaving confidences and all other records unchanged. -/
theorem smooth_positions_zero_phase_spec (ps : List MouthPos) (fps cutoffHz : ℚ) :
    (cutoffHz ≤ 0 → smoothPositionsZeroPhase ps fps cutoffHz = ps) ∧
    (fps ≤ 0 → smoothPositionsZeroPhase ps fps cutoffHz = ps) ∧
    (onePoleBeta cutoffHz fps ≤ 0 ∨ 1 ≤ onePoleBeta cutoffHz fps →
      smoothPositionsZeroPhase ps fps cutoffHz = ps) ∧
    ((validIndices ps).length < 2 → smoothPositionsZeroPhase ps fps cutoffHz = ps) ∧
    (0 < cutoffHz → 0 < fps →
      onePoleBeta cutoffHz fps = (1 / fps) / (1 / (2 * piQ * cutoffHz) + 1 / fps)) ∧
    ((smoothPositionsZeroPhase ps fps cutoffHz).length = ps.length) ∧
    (∀ i, i < ps.length → (ps.getD i default).confidence ≤ 0 →
      (smoothPositionsZeroPhase ps fps cutoffHz).getD i default = ps.getD i default) ∧
    (2 ≤ (validIndices ps).length →
      0 < onePoleBeta cutoffHz fps → onePoleBeta cutoffHz fps < 1 →
      ∀ i, i < ps.length → 0 < (ps.getD i default).confidence →
      (smoothPositionsZeroPhase ps fps cutoffHz).getD i default =
        { centerX := (smoothedVals (onePoleBeta cutoffHz fps) ps (validIndices ps)
            (fun p => p.centerX)).getD ((validIndices ps).indexOf i) 0
          centerY := (smoothedVals (onePoleBeta cutoffHz fps) ps (validIndices ps)
            (fun p => p.centerY)).getD ((validIndices ps).indexOf i) 0
          width := (smoothedVals (onePoleBeta cutoffHz fps) ps (validIndices ps)
            (fun p => p.width)).getD ((validIndices ps).indexOf i) 0
          height := (smoothedVals (onePoleBeta cutoffHz fps) ps (validIndices ps)
            (fun p => p.height)).getD ((validIndices ps).indexOf i) 0
          rotation := (smoothedVals (onePoleBeta cutoffHz fps) ps (validIndices ps)
            (fun p => p.rotation)).getD ((validIndices ps).indexOf i) 0
          confidence := (ps.getD i default).confidence }) := by
  have hguard : ∀ (h : onePoleBeta cutoffHz fps ≤ 0 ∨ 1 ≤ onePoleBeta cutoffHz fps),
      smoothPositionsZeroPhase ps fps cutoffHz = ps := by
    intro h
    by_cases h1 : ps.length < 2 ∨ cutoffHz ≤ 0
    · rw [smoothPositionsZeroPhase, if_pos h1]
    · rw [smoothPositionsZeroPhase, if_neg h1, if_pos h]
  have hvguard : ∀ (h : (validIndices ps).length < 2),
      smoothPositionsZeroPhase ps fps cutoffHz = ps := by
    intro h
    by_cases h1 : ps.length < 2 ∨ cutoffHz ≤ 0
    · rw [smoothPositionsZeroPhase, if_pos h1]
    · by_cases h2 : onePoleBeta cutoffHz fps ≤ 0 ∨ 1 ≤ onePoleBeta cutoffHz fps
      · rw [smoothPositionsZeroPhase, if_neg h1, if_pos h2]
      · rw [smoothPositionsZeroPhase, if_neg h1, if_neg h2, if_pos h]
  refine ⟨?_, ?_, hguard, hvguard, ?_, ?_, ?_, ?_⟩
  · intro h
    rw [smoothPositionsZeroPhase, if_pos (Or.inr h)]
  · intro h
    apply hguard
    left
    rw [onePoleBeta]
    split
    · rfl
    · rename_i hcond
      exact absurd (Or.inr h) hcond
  · intro hc hf
    rw [onePoleBeta, if_neg (by push_neg; exact ⟨hc, hf⟩)]
  · by_cases h1 : ps.length < 2 ∨ cutoffHz ≤ 0
    · rw [smoothPositionsZeroPhase, if_pos h1]
    · by_cases h2 : onePoleBeta cutoffHz fps ≤ 0 ∨ 1 ≤ onePoleBeta cutoffHz fps
      · rw [smoothPositionsZeroPhase, if_neg h1, if_pos h2]
      · by_cases h3 : (validIndices ps).length < 2
        · rw [smoothPositionsZeroPhase, if_neg h1, if_neg h2, if_pos h3]
        · rw [smoothPositionsZeroPhase, if_neg h1, if_neg h2, if_neg h3]
          simp only [smoothKey_length]
  · intro i hi hconf
    have hnv : i ∉ validIndices ps := by
      rw [mem_validIndices]
      push_neg
      intro
      exact hconf
    by_cases h1 : ps.length < 2 ∨ cutoffHz ≤ 0
    · rw [smoothPositionsZeroPhase, if_pos h1]
    · by_cases h2 : onePoleBeta cutoffHz fps ≤ 0 ∨ 1 ≤ onePoleBeta cutoffHz fps
      · rw [smoothPositionsZeroPhase, if_pos h2, if_neg h1]
      · by_cases h3 : (validIndices ps).length < 2
        · rw [smoothPositionsZeroPhase, if_neg h1, if_neg h2, if_pos h3]
        · rw [smoothPositionsZeroPhase, if_neg h1, if_neg h2, if_neg h3]
          rw [smoothKey_getD_not_mem _ _ _ _ _ _ hnv, smoothKey_getD_not_mem _ _ _ _ _ _ hnv,
            smoothKey_getD_not_mem _ _ _ _ _ _ hnv, smoothKey_getD_not_mem _ _ _ _ _ _ hnv,
            smoothKey_getD_not_mem _ _ _ _ _ _ hnv]
  · intro hvl hb0 hb1 i hi hconf
    have hmem : i ∈ validIndices ps := (mem_validIndices ps i).mpr ⟨hi, hconf⟩
    have hc2 : ¬ cutoffHz ≤ 0 := by
      intro h
      have hz : onePoleBeta cutoffHz fps = 0 := by
        rw [onePoleBeta, if_pos (Or.inl h)]
      rw [hz] at hb0
      exact lt_irrefl 0 hb0
    have hg1 : ¬ (ps.length < 2 ∨ cutoffHz ≤ 0) := by
      push_neg
      refine ⟨?_, not_le.mp hc2⟩
      have := validIndices_length_le ps
      omega
    have hg2 : ¬ (onePoleBeta cutoffHz fps ≤ 0 ∨ 1 ≤ onePoleBeta cutoffHz fps) := by
      push_neg
      exact ⟨hb0, hb1⟩
    have hg3 : ¬ ((validIndices ps).length < 2) := not_lt.mpr hvl
    rw [smoothPositionsZeroPhase, if_neg hg1, if_neg hg2, if_neg hg3]
    rw [smoothKey_getD_mem _ _ _ _ _ _ hmem
      (by simp only [smoothKey_length]; exact hi)]
    rw [smoothKey_getD_mem _ _ _ _ _ _ hmem
      (by simp only [smoothKey_length]; exact hi)]
    rw [smoothKey_getD_mem _ _ _ _ _ _ hmem
      (by simp only [smoothKey_length]; exact hi)]
    rw [smoothKey_getD_mem _ _ _ _ _ _ hmem
      (by simp only [smoothKey_length]; exact hi)]
    rw [smoothKey_getD_mem _ _ _ _ _ _ hmem hi]

/-- Concrete two-record list with a single valid record. -/
def psOneValid : List MouthPos := [⟨1, 1, 1, 1, 1, 1⟩, ⟨2, 2, 2, 2, 2, 0⟩]

theorem smooth_positions_zero_phase_spec_witness :
    smoothPositionsZeroPhase psOneValid 30 3 = psOneValid ∧
    onePoleBeta 3 30 = (1 / 30) / (1 / (2 * piQ * 3) + 1 / 30) := by
  constructor
  · exact (smooth_positions_zero_phase_spec psOneValid 30 3).2.2.2.1 (by decide)
  · exact (smooth_positions_zero_phase_spec psOneValid 30 3).2.2.2.2.1
      (by norm_num) (by norm_num)

lemma list_set_getD_self (l : List MouthPos) (i : ℕ) (h : i < l.length) :
    l.set i (l.getD i default) = l := by
  rw [List.getD_eq_getElem l default h]
  induction l generalizing i with
  | nil => rfl
  | cons a t ih =>
    cases i with
    | zero => rfl
    | succ n =>
      simp only [List.set_cons_succ, List.getElem_cons_succ]
      rw [ih n (by simpa using h)]

lemma emaGo_const (beta c : ℚ) (l : List ℚ) (h : ∀ x ∈ l, x = c) :
    emaGo beta c l = l := by
  induction l with
  | nil => rfl
  | cons y ys ih =>
    have hy : y = c := h y (List.mem_cons_self y ys)
    subst hy
    rw [emaGo]
    have hv : beta * y + (1 - beta) * y = y := by ring
    rw [hv, ih (fun x hx => h x (List.mem_cons_of_mem y hx))]

lemma emaForward_const (beta c : ℚ) (l : List ℚ) (h : ∀ x ∈ l, x = c) :
    emaForward beta l = l := by
  cases l with
  | nil => rfl
  | cons x xs =>
    have hx : x = c := h x (List.mem_cons_self x xs)
    subst hx
    rw [emaForward, emaGo_const beta x xs (fun y hy => h y (List.mem_cons_of_mem x hy))]

lemma smoothedVals_const (beta c : ℚ) (ps : List MouthPos) (vis : List ℕ)
    (get : MouthPos → ℚ) (h : ∀ i ∈ vis, get (ps.getD i default) = c) :
    ∀ w ∈ smoothedVals beta ps vis get, w = c := by
  intro w hw
  rw [smoothedVals] at hw
  have hmap : ∀ x ∈ vis.map (fun i => get (ps.getD i default)), x = c := by
    intro x hx
    rcases List.mem_map.mp hx with ⟨i, hi, hxi⟩
    rw [← hxi]
    exact h i hi
  rw [emaForward_const beta c _ hmap] at hw
  have hrev : ∀ x ∈ (vis.map (fun i => get (ps.getD i default))).reverse, x = c := by
    intro x hx
    exact hmap x (List.mem_reverse.mp hx)
  rw [emaBackward, emaForward_const beta c _ hrev] at hw
  rw [List.mem_reverse] at hw
  exact hrev w (List.mem_reverse.mpr (List.mem_reverse.mp hw))

lemma writeBack_fixed (set : MouthPos → ℚ → MouthPos) (get : MouthPos → ℚ) (c : ℚ)
    (hsg : ∀ p, set p (get p) = p) (ps : List MouthPos) (vis : List ℕ) (vals : List ℚ)
    (hw : ∀ w ∈ vals, w = c) (hv : ∀ v ∈ vis, get (ps.getD v default) = c) :
    writeBack set vis vals ps = ps := by
  induction vis generalizing vals with
  | nil => rfl
  | cons v vs ih =>
    cases vals with
    | nil => rfl
    | cons w ws =>
      rw [writeBack, List.zip_cons_cons, List.foldl_cons, ← writeBack]
      have hwc : w = c := hw w (List.mem_cons_self w ws)
      have hvc : get (ps.getD v default) = c := hv v (List.mem_cons_self v vs)
      have hset : set (ps.getD v default) w = ps.getD v default := by
        rw [hwc, ← hvc, hsg]
      rw [hset]
      have hps : ps.set v (ps.getD v default) = ps := by
        rcases lt_or_ge v ps.length with hlt | hge
        · exact list_set_getD_self ps v hlt
        · exact List.set_eq_of_length_le hge
      rw [hps]
      exact ih ws (fun x hx => hw x (List.mem_cons_of_mem w hx))
        (fun x hx => hv x (List.mem_cons_of_mem v hx))

/-- C6: zero-phase smoothing is a fixed point on inputs whose tracked
fields are constant across all positive-confidence records: the output
list equals the input list exactly (in particular for every beta in
(0,1)). -/
theorem smooth_constant_fixed_point (ps : List MouthPos) (fps cutoffHz c1 c2 c3 c4 c5 : ℚ)
    (hc : ∀ p ∈ ps, 0 < p.confidence →
      p.centerX = c1 ∧ p.centerY = c2 ∧ p.width = c3 ∧ p.height = c4 ∧ p.rotation = c5) :
    smoothPositionsZeroPhase ps fps cutoffHz = ps := by
  by_cases h1 : ps.length < 2 ∨ cutoffHz ≤ 0
  · rw [smoothPositionsZeroPhase, if_pos h1]
  · by_cases h2 : onePoleBeta cutoffHz fps ≤ 0 ∨ 1 ≤ onePoleBeta cutoffHz fps
    · rw [smoothPositionsZeroPhase, if_neg h1, if_pos h2]
    · by_cases h3 : (validIndices ps).length < 2
      · rw [smoothPositionsZeroPhase, if_neg h1, if_neg h2, if_pos h3]
      · rw [smoothPositionsZeroPhase, if_neg h1, if_neg h2, if_neg h3]
        have hmem : ∀ i ∈ validIndices ps,
            (ps.getD i default).centerX = c1 ∧ (ps.getD i default).centerY = c2 ∧
            (ps.getD i default).width = c3 ∧ (ps.getD i default).height = c4 ∧
            (ps.getD i default).rotation = c5 := by
          intro i hi
          rcases (mem_validIndices ps i).mp hi with ⟨hlen, hpos⟩
          have hm : ps.getD i default ∈ ps := by
            rw [List.getD_eq_getElem ps default hlen]
            exact List.getElem_mem hlen
          exact hc _ hm hpos
        have key : ∀ (get : MouthPos → ℚ) (set : MouthPos → ℚ → MouthPos) (c : ℚ),
            (∀ p, set p (get p) = p) →
            (∀ i ∈ validIndices ps, get (ps.getD i default) = c) →
            smoothKey (onePoleBeta cutoffHz fps) ps (validIndices ps) get set ps = ps := by
          intro get set c hsg hv
          rw [smoothKey]
          exact writeBack_fixed set get c hsg ps _ _
            (smoothedVals_const _ c ps _ get hv) hv
        rw [key (fun p => p.centerX) _ c1 (fun p => rfl) (fun i hi => (hmem i hi).1),
          key (fun p => p.centerY) _ c2 (fun p => rfl) (fun i hi => (hmem i hi).2.1),
          key (fun p => p.width) _ c3 (fun p => rfl) (fun i hi => (hmem i hi).2.2.1),
          key (fun p => p.height) _ c4 (fun p => rfl) (fun i hi => (hmem i hi).2.2.2.1),
          key (fun p => p.rotation) _ c5 (fun p => rfl) (fun i hi => (hmem i hi).2.2.2.2)]

/-- Concrete constant-signal list. -/
def psConst : List MouthPos := [⟨1, 2, 3, 4, 5, 1⟩, ⟨1, 2, 3, 4, 5, 1⟩, ⟨1, 2, 3, 4, 5, 1⟩]

theorem smooth_constant_fixed_point_witness :
    smoothPositionsZeroPhase psConst 30 3 = psConst :=
  smooth_constant_fixed_point psConst 30 3 1 2 3 4 5 (by decide)

lemma scanPN_ne_none (i : ℕ) (l : List ℕ) (hne : l ≠ []) (hnm : i ∉ l) :
    scanPN i l ≠ (none, none) := by
  induction l with
  | nil => exact absurd rfl hne
  | cons v vs ih =>
    rw [scanPN]
    rcases lt_trichotomy v i with hvi | hvi | hvi
    · rw [if_pos hvi]
      intro h
      exact Option.noConfusion (congrArg Prod.fst h)
    · exact absurd (hvi ▸ List.mem_cons_self v vs) hnm
    · rw [if_neg (by omega), if_pos hvi]
      intro h
      exact Option.noConfusion (congrArg Prod.snd h)

lemma exists_valid_iff (ps : List MouthPos) :
    (∃ p ∈ ps, 0 < p.confidence) ↔ validIndices ps ≠ [] := by
  constructor
  · intro ⟨p, hp, hpos⟩
    rcases List.getElem_of_mem hp with ⟨n, hn, hget⟩
    have hmem : n ∈ validIndices ps := by
      rw [mem_validIndices]
      refine ⟨hn, ?_⟩
      rw [List.getD_eq_getElem ps default hn, hget]
      exact hpos
    exact List.ne_nil_of_mem hmem
  · intro h
    rcases List.exists_mem_of_ne_nil _ h with ⟨i, hi⟩
    rcases (mem_validIndices ps i).mp hi with ⟨hlen, hpos⟩
    refine ⟨ps.getD i default, ?_, hpos⟩
    rw [List.getD_eq_getElem ps default hlen]
    exact List.getElem_mem hlen

lemma interpolate_confidence_pos (ps : List MouthPos)
    (hex : ∃ p ∈ ps, 0 < p.confidence) (i : ℕ) (hi : i < ps.length) :
    0 < ((interpolate ps).getD i default).confidence := by
  have hv : validIndices ps ≠ [] := (exists_valid_iff ps).mp hex
  rw [interpolate_getD ps i hi hv, interpOne]
  by_cases hc : 0 < (ps.getD i default).confidence
  · rw [if_pos hc]
    exact hc
  · rw [if_neg hc]
    have hnm : i ∉ validIndices ps := by
      rw [mem_validIndices]
      push_neg
      intro
      exact not_lt.mp hc
    have hne := scanPN_ne_none i (validIndices ps) hv hnm
    rcases hs : scanPN i (validIndices ps) with ⟨o1, o2⟩
    rcases o1 with _ | pv
    · rcases o2 with _ | nx
      · exact absurd hs hne
      · simp only []
        norm_num
    · rcases o2 with _ | nx
      · simp only []
        norm_num
      · simp only []
        norm_num

lemma smooth_confidence (ps : List MouthPos) (fps cutoffHz : ℚ) (i : ℕ) :
    ((smoothPositionsZeroPhase ps fps cutoffHz).getD i default).confidence =
      (ps.getD i default).confidence := by
  by_cases h1 : ps.length < 2 ∨ cutoffHz ≤ 0
  · rw [smoothPositionsZeroPhase, if_pos h1]
  · by_cases h2 : onePoleBeta cutoffHz fps ≤ 0 ∨ 1 ≤ onePoleBeta cutoffHz fps
    · rw [smoothPositionsZeroPhase, if_neg h1, if_pos h2]
    · by_cases h3 : (validIndices ps).length < 2
      · rw [smoothPositionsZeroPhase, if_neg h1, if_neg h2, if_pos h3]
      · rw [smoothPositionsZeroPhase, if_neg h1, if_neg h2, if_neg h3]
        by_cases hm : i ∈ validIndices ps
        · have hi : i < ps.length := ((mem_validIndices ps i).mp hm).1
          rw [smoothKey_getD_mem _ _ _ _ _ _ hm
            (by simp only [smoothKey_length]; exact hi)]
          rw [smoothKey_getD_mem _ _ _ _ _ _ hm
            (by simp only [smoothKey_length]; exact hi)]
          rw [smoothKey_getD_mem _ _ _ _ _ _ hm
            (by simp only [smoothKey_length]; exact hi)]
          rw [smoothKey_getD_mem _ _ _ _ _ _ hm
            (by simp only [smoothKey_length]; exact hi)]
          rw [smoothKey_getD_mem _ _ _ _ _ _ hm hi]
        · rw [smoothKey_getD_not_mem _ _ _ _ _ _ hm, smoothKey_getD_not_mem _ _ _ _ _ _ hm,
            smoothKey_getD_not_mem _ _ _ _ _ _ hm, smoothKey_getD_not_mem _ _ _ _ _ _ hm,
            smoothKey_getD_not_mem _ _ _ _ _ _ hm]

/-- The per-frame branch of pass 2 of `process_video`: a frame is erased
exactly when its (interpolated, smoothed) record has positive confidence,
otherwise it is passed through unmodified. -/
def frameUsesErase (ps : List MouthPos) (i : ℕ) : Bool :=
  decide (0 < (ps.getD i default).confidence)

/-- C10: if at least one record has positive confidence then after
interpolation every record has positive confidence, and consequently the
compositor branch of `process_video` erases every frame (the confidence-0
passthrough executes only on clips with no successful detection at all). -/
theorem interpolation_confidence_invariant (ps : List MouthPos)
    (hex : ∃ p ∈ ps, 0 < p.confidence) :
    (∀ i, i < (interpolate ps).length →
      0 < ((interpolate ps).getD i default).confidence) ∧
    (∀ fps cutoffHz i, i < ps.length →
      frameUsesErase (smoothPositionsZeroPhase (interpolate ps) fps cutoffHz) i = true) := by
  constructor
  · intro i hi
    rw [interpolate_length] at hi
    exact interpolate_confidence_pos ps hex i hi
  · intro fps cutoffHz i hi
    rw [frameUsesErase, decide_eq_true_eq, smooth_confidence]
    exact interpolate_confidence_pos ps hex i hi

/-- Concrete list: one failed detection followed by one valid record. -/
def psMixed : List MouthPos := [⟨5, 5, 5, 5, 5, 0⟩, ⟨1, 1, 1, 1, 1, 1⟩]

theorem interpolation_confidence_invariant_witness :
    0 < ((interpolate psMixed).getD 0 default).confidence ∧
    frameUsesErase (smoothPositionsZeroPhase (interpolate psMixed) 30 3) 0 = true := by
  have h := interpolation_confidence_invariant psMixed
    ⟨⟨1, 1, 1, 1, 1, 1⟩, by simp [psMixed], by norm_num⟩
  exact ⟨h.1 0 (by rw [interpolate_length]; decide), h.2 30 3 0 (by decide)⟩

/-- A 2D point with rational coordinates. -/
structure Pt where
  x : ℚ
  y : ℚ
deriving DecidableEq, Repr

/-- An ordered 4-point quad [top-left, top-right, bottom-right,
bottom-left], the return shape of `get_quad_from_position`. -/
structure Quad where
  p1 : Pt
  p2 : Pt
  p3 : Pt
  p4 : Pt
deriving DecidableEq, Repr

/-- A 3x3 matrix of rationals (a homography, row-major). -/
structure Mat3 where
  m00 : ℚ
  m01 : ℚ
  m02 : ℚ
  m10 : ℚ
  m11 : ℚ
  m12 : ℚ
  m20 : ℚ
  m21 : ℚ
  m22 : ℚ
deriving DecidableEq, Repr
def det2 (a00 a01 a10 a11 : ℚ) : ℚ :=
  a00 * (a11)
    - a10 * (a01)

def det3 (a00 a01 a02 a10 a11 a12 a20 a21 a22 : ℚ) : ℚ :=
  a00 * (det2 a11 a12 a21 a22)
    - a10 * (det2 a01 a02 a21 a22)
    + a20 * (det2 a01 a02 a11 a12)

def det4 (a00 a01 a02 a03 a10 a11 a12 a13 a20 a21 a22 a23 a30 a31 a32 a33 : ℚ) : ℚ :=
  a00 * (det3 a11 a12 a13 a21 a22 a23 a31 a32 a33)
    - a10 * (det3 a01 a02 a03 a21 a22 a23 a31 a32 a33)
    + a20 * (det3 a01 a02 a03 a11 a12 a13 a31 a32 a33)
    - a30 * (det3 a01 a02 a03 a11 a12 a13 a21 a22 a23)

def det5 (a00 a01 a02 a03 a04 a10 a11 a12 a13 a14 a20 a21 a22 a23 a24 a30 a31 a32 a33 a34 a40 a41 a42 a43 a44 : ℚ) : ℚ :=
  a00 * (det4 a11 a12 a13 a14 a21 a22 a23 a24 a31 a32 a33 a34 a41 a42 a43 a44)
    - a10 * (det4 a01 a02 a03 a04 a21 a22 a23 a24 a31 a32 a33 a34 a41 a42 a43 a44)
    + a20 * (det4 a01 a02 a03 a04 a11 a12 a13 a14 a31 a32 a33 a34 a41 a42 a43 a44)
    - a30 * (det4 a01 a02 a03 a04 a11 a12 a13 a14 a21 a22 a23 a24 a41 a42 a43 a44)
    + a40 * (det4 a01 a02 a03 a04 a11 a12 a13 a14 a21 a22 a23 a24 a31 a32 a33 a34)

def det6 (a00 a01 a02 a03 a04 a05 a10 a11 a12 a13 a14 a15 a20 a21 a22 a23 a24 a25 a30 a31 a32 a33 a34 a35 a40 a41 a42 a43 a44 a45 a50 a51 a52 a53 a54 a55 : ℚ) : ℚ :=
  a00 * (det5 a11 a12 a13 a14 a15 a21 a22 a23 a24 a25 a31 a32 a33 a34 a35 a41 a42 a43 a44 a45 a51 a52 a53 a54 a55)
    - a10 * (det5 a01 a02 a03 a04 a05 a21 a22 a23 a24 a25 a31 a32 a33 a34 a35 a41 a42 a43 a44 a45 a51 a52 a53 a54 a55)
    + a20 * (det5 a01 a02 a03 a04 a05 a11 a12 a13 a14 a15 a31 a32 a33 a34 a35 a41 a42 a43 a44 a45 a51 a52 a53 a54 a55)
    - a30 * (det5 a01 a02 a03 a04 a05 a11 a12 a13 a14 a15 a21 a22 a23 a24 a25 a41 a42 a43 a44 a45 a51 a52 a53 a54 a55)
    + a40 * (det5 a01 a02 a03 a04 a05 a11 a12 a13 a14 a15 a21 a22 a23 a24 a25 a31 a32 a33 a34 a35 a51 a52 a53 a54 a55)
    - a50 * (det5 a01 a02 a03 a04 a05 a11 a12 a13 a14 a15 a21 a22 a23 a24 a25 a31 a32 a33 a34 a35 a41 a42 a43 a44 a45)

def det7 (a00 a01 a02 a03 a04 a05 a06 a10 a11 a12 a13 a14 a15 a16 a20 a21 a22 a23 a24 a25 a26 a30 a31 a32 a33 a34 a35 a36 a40 a41 a42 a43 a44 a45 a46 a50 a51 a52 a53 a54 a55 a56 a60 a61 a62 a63 a64 a65 a66 : ℚ) : ℚ :=
  a00 * (det6 a11 a12 a13 a14 a15 a16 a21 a22 a23 a24 a25 a26 a31 a32 a33 a34 a35 a36 a41 a42 a43 a44 a45 a46 a51 a52 a53 a54 a55 a56 a61 a62 a63 a64 a65 a66)
    - a10 * (det6 a01 a02 a03 a04 a05 a06 a21 a22 a23 a24 a25 a26 a31 a32 a33 a34 a35 a36 a41 a42 a43 a44 a45 a46 a51 a52 a53 a54 a55 a56 a61 a62 a63 a64 a65 a66)
    + a20 * (det6 a01 a02 a03 a04 a05 a06 a11 a12 a13 a14 a15 a16 a31 a32 a33 a34 a35 a36 a41 a42 a43 a44 a45 a46 a51 a52 a53 a54 a55 a56 a61 a62 a63 a64 a65 a66)
    - a30 * (det6 a01 a02 a03 a04 a05 a06 a11 a12 a13 a14 a15 a16 a21 a22 a23 a24 a25 a26 a41 a42 a43 a44 a45 a46 a51 a52 a53 a54 a55 a56 a61 a62 a63 a64 a65 a66)
    + a40 * (det6 a01 a02 a03 a04 a05 a06 a11 a12 a13 a14 a15 a16 a21 a22 a23 a24 a25 a26 a31 a32 a33 a34 a35 a36 a51 a52 a53 a54 a55 a56 a61 a62 a63 a64 a65 a66)
    - a50 * (det6 a01 a02 a03 a04 a05 a06 a11 a12 a13 a14 a15 a16 a21 a22 a23 a24 a25 a26 a31 a32 a33 a34 a35 a36 a41 a42 a43 a44 a45 a46 a61 a62 a63 a64 a65 a66)
    + a60 * (det6 a01 a02 a03 a04 a05 a06 a11 a12 a13 a14 a15 a16 a21 a22 a23 a24 a25 a26 a31 a32 a33 a34 a35 a36 a41 a42 a43 a44 a45 a46 a51 a52 a53 a54 a55 a56)

def det8 (a00 a01 a02 a03 a04 a05 a06 a07 a10 a11 a12 a13 a14 a15 a16 a17 a20 a21 a22 a23 a24 a25 a26 a27 a30 a31 a32 a33 a34 a35 a36 a37 a40 a41 a42 a43 a44 a45 a46 a47 a50 a51 a52 a53 a54 a55 a56 a57 a60 a61 a62 a63 a64 a65 a66 a67 a70 a71 a72 a73 a74 a75 a76 a77 : ℚ) : ℚ :=
  a00 * (det7 a11 a12 a13 a14 a15 a16 a17 a21 a22 a23 a24 a25 a26 a27 a31 a32 a33 a34 a35 a36 a37 a41 a42 a43 a44 a45 a46 a47 a51 a52 a53 a54 a55 a56 a57 a61 a62 a63 a64 a65 a66 a67 a71 a72 a73 a74 a75 a76 a77)
    - a10 * (det7 a01 a02 a03 a04 a05 a06 a07 a21 a22 a23 a24 a25 a26 a27 a31 a32 a33 a34 a35 a36 a37 a41 a42 a43 a44 a45 a46 a47 a51 a52 a53 a54 a55 a56 a57 a61 a62 a63 a64 a65 a66 a67 a71 a72 a73 a74 a75 a76 a77)
    + a20 * (det7 a01 a02 a03 a04 a05 a06 a07 a11 a12 a13 a14 a15 a16 a17 a31 a32 a33 a34 a35 a36 a37 a41 a42 a43 a44 a45 a46 a47 a51 a52 a53 a54 a55 a56 a57 a61 a62 a63 a64 a65 a66 a67 a71 a72 a73 a74 a75 a76 a77)
    - a30 * (det7 a01 a02 a03 a04 a05 a06 a07 a11 a12 a13 a14 a15 a16 a17 a21 a22 a23 a24 a25 a26 a27 a41 a42 a43 a44 a45 a46 a47 a51 a52 a53 a54 a55 a56 a57 a61 a62 a63 a64 a65 a66 a67 a71 a72 a73 a74 a75 a76 a77)
    + a40 * (det7 a01 a02 a03 a04 a05 a06 a07 a11 a12 a13 a14 a15 a16 a17 a21 a22 a23 a24 a25 a26 a27 a31 a32 a33 a34 a35 a36 a37 a51 a52 a53 a54 a55 a56 a57 a61 a62 a63 a64 a65 a66 a67 a71 a72 a73 a74 a75 a76 a77)
    - a50 * (det7 a01 a02 a03 a04 a05 a06 a07 a11 a12 a13 a14 a15 a16 a17 a21 a22 a23 a24 a25 a26 a27 a31 a32 a33 a34 a35 a36 a37 a41 a42 a43 a44 a45 a46 a47 a61 a62 a63 a64 a65 a66 a67 a71 a72 a73 a74 a75 a76 a77)
    + a60 * (det7 a01 a02 a03 a04 a05 a06 a07 a11 a12 a13 a14 a15 a16 a17 a21 a22 a23 a24 a25 a26 a27 a31 a32 a33 a34 a35 a36 a37 a41 a42 a43 a44 a45 a46 a47 a51 a52 a53 a54 a55 a56 a57 a71 a72 a73 a74 a75 a76 a77)
    - a70 * (det7 a01 a02 a03 a04 a05 a06 a07 a11 a12 a13 a14 a15 a16 a17 a21 a22 a23 a24 a25 a26 a27 a31 a32 a33 a34 a35 a36 a37 a41 a42 a43 a44 a45 a46 a47 a51 a52 a53 a54 a55 a56 a57 a61 a62 a63 a64 a65 a66 a67)

/-- Coefficient determinant of the 8x8 getPerspectiveTransform system for correspondences mapping quad s to quad d. -/
def gptDet (s d : Quad) : ℚ :=
  det8 s.p1.x s.p1.y 1 0 0 0 (-(s.p1.x * d.p1.x)) (-(s.p1.y * d.p1.x))
    0 0 0 s.p1.x s.p1.y 1 (-(s.p1.x * d.p1.y)) (-(s.p1.y * d.p1.y))
    s.p2.x s.p2.y 1 0 0 0 (-(s.p2.x * d.p2.x)) (-(s.p2.y * d.p2.x))
    0 0 0 s.p2.x s.p2.y 1 (-(s.p2.x * d.p2.y)) (-(s.p2.y * d.p2.y))
    s.p3.x s.p3.y 1 0 0 0 (-(s.p3.x * d.p3.x)) (-(s.p3.y * d.p3.x))
    0 0 0 s.p3.x s.p3.y 1 (-(s.p3.x * d.p3.y)) (-(s.p3.y * d.p3.y))
    s.p4.x s.p4.y 1 0 0 0 (-(s.p4.x * d.p4.x)) (-(s.p4.y * d.p4.x))
    0 0 0 s.p4.x s.p4.y 1 (-(s.p4.x * d.p4.y)) (-(s.p4.y * d.p4.y))

/-- Cramer numerator for unknown 0 of the getPerspectiveTransform system. -/
def gptNum0 (s d : Quad) : ℚ :=
  det8 d.p1.x s.p1.y 1 0 0 0 (-(s.p1.x * d.p1.x)) (-(s.p1.y * d.p1.x))
    d.p1.y 0 0 s.p1.x s.p1.y 1 (-(s.p1.x * d.p1.y)) (-(s.p1.y * d.p1.y))
    d.p2.x s.p2.y 1 0 0 0 (-(s.p2.x * d.p2.x)) (-(s.p2.y * d.p2.x))
    d.p2.y 0 0 s.p2.x s.p2.y 1 (-(s.p2.x * d.p2.y)) (-(s.p2.y * d.p2.y))
    d.p3.x s.p3.y 1 0 0 0 (-(s.p3.x * d.p3.x)) (-(s.p3.y * d.p3.x))
    d.p3.y 0 0 s.p3.x s.p3.y 1 (-(s.p3.x * d.p3.y)) (-(s.p3.y * d.p3.y))
    d.p4.x s.p4.y 1 0 0 0 (-(s.p4.x * d.p4.x)) (-(s.p4.y * d.p4.x))
    d.p4.y 0 0 s.p4.x s.p4.y 1 (-(s.p4.x * d.p4.y)) (-(s.p4.y * d.p4.y))

/-- Cramer numerator for unknown 1 of the getPerspectiveTransform system. -/
def gptNum1 (s d : Quad) : ℚ :=
  det8 s.p1.x d.p1.x 1 0 0 0 (-(s.p1.x * d.p1.x)) (-(s.p1.y * d.p1.x))
    0 d.p1.y 0 s.p1.x s.p1.y 1 (-(s.p1.x * d.p1.y)) (-(s.p1.y * d.p1.y))
    s.p2.x d.p2.x 1 0 0 0 (-(s.p2.x * d.p2.x)) (-(s.p2.y * d.p2.x))
    0 d.p2.y 0 s.p2.x s.p2.y 1 (-(s.p2.x * d.p2.y)) (-(s.p2.y * d.p2.y))
    s.p3.x d.p3.x 1 0 0 0 (-(s.p3.x * d.p3.x)) (-(s.p3.y * d.p3.x))
    0 d.p3.y 0 s.p3.x s.p3.y 1 (-(s.p3.x * d.p3.y)) (-(s.p3.y * d.p3.y))
    s.p4.x d.p4.x 1 0 0 0 (-(s.p4.x * d.p4.x)) (-(s.p4.y * d.p4.x))
    0 d.p4.y 0 s.p4.x s.p4.y 1 (-(s.p4.x * d.p4.y)) (-(s.p4.y * d.p4.y))

/-- Cramer numerator for unknown 2 of the getPerspectiveTransform system. -/
def gptNum2 (s d : Quad) : ℚ :=
  det8 s.p1.x s.p1.y d.p1.x 0 0 0 (-(s.p1.x * d.p1.x)) (-(s.p1.y * d.p1.x))
    0 0 d.p1.y s.p1.x s.p1.y 1 (-(s.p1.x * d.p1.y)) (-(s.p1.y * d.p1.y))
    s.p2.x s.p2.y d.p2.x 0 0 0 (-(s.p2.x * d.p2.x)) (-(s.p2.y * d.p2.x))
    0 0 d.p2.y s.p2.x s.p2.y 1 (-(s.p2.x * d.p2.y)) (-(s.p2.y * d.p2.y))
    s.p3.x s.p3.y d.p3.x 0 0 0 (-(s.p3.x * d.p3.x)) (-(s.p3.y * d.p3.x))
    0 0 d.p3.y s.p3.x s.p3.y 1 (-(s.p3.x * d.p3.y)) (-(s.p3.y * d.p3.y))
    s.p4.x s.p4.y d.p4.x 0 0 0 (-(s.p4.x * d.p4.x)) (-(s.p4.y * d.p4.x))
    0 0 d.p4.y s.p4.x s.p4.y 1 (-(s.p4.x * d.p4.y)) (-(s.p4.y * d.p4.y))

/-- Cramer numerator for unknown 3 of the getPerspectiveTransform system. -/
def gptNum3 (s d : Quad) : ℚ :=
  det8 s.p1.x s.p1.y 1 d.p1.x 0 0 (-(s.p1.x * d.p1.x)) (-(s.p1.y * d.p1.x))
    0 0 0 d.p1.y s.p1.y 1 (-(s.p1.x * d.p1.y)) (-(s.p1.y * d.p1.y))
    s.p2.x s.p2.y 1 d.p2.x 0 0 (-(s.p2.x * d.p2.x)) (-(s.p2.y * d.p2.x))
    0 0 0 d.p2.y s.p2.y 1 (-(s.p2.x * d.p2.y)) (-(s.p2.y * d.p2.y))
    s.p3.x s.p3.y 1 d.p3.x 0 0 (-(s.p3.x * d.p3.x)) (-(s.p3.y * d.p3.x))
    0 0 0 d.p3.y s.p3.y 1 (-(s.p3.x * d.p3.y)) (-(s.p3.y * d.p3.y))
    s.p4.x s.p4.y 1 d.p4.x 0 0 (-(s.p4.x * d.p4.x)) (-(s.p4.y * d.p4.x))
    0 0 0 d.p4.y s.p4.y 1 (-(s.p4.x * d.p4.y)) (-(s.p4.y * d.p4.y))

/-- Cramer numerator for unknown 4 of the getPerspectiveTransform system. -/
def gptNum4 (s d : Quad) : ℚ :=
  det8 s.p1.x s.p1.y 1 0 d.p1.x 0 (-(s.p1.x * d.p1.x)) (-(s.p1.y * d.p1.x))
    0 0 0 s.p1.x d.p1.y 1 (-(s.p1.x * d.p1.y)) (-(s.p1.y * d.p1.y))
    s.p2.x s.p2.y 1 0 d.p2.x 0 (-(s.p2.x * d.p2.x)) (-(s.p2.y * d.p2.x))
    0 0 0 s.p2.x d.p2.y 1 (-(s.p2.x * d.p2.y)) (-(s.p2.y * d.p2.y))
    s.p3.x s.p3.y 1 0 d.p3.x 0 (-(s.p3.x * d.p3.x)) (-(s.p3.y * d.p3.x))
    0 0 0 s.p3.x d.p3.y 1 (-(s.p3.x * d.p3.y)) (-(s.p3.y * d.p3.y))
    s.p4.x s.p4.y 1 0 d.p4.x 0 (-(s.p4.x * d.p4.x)) (-(s.p4.y * d.p4.x))
    0 0 0 s.p4.x d.p4.y 1 (-(s.p4.x * d.p4.y)) (-(s.p4.y * d.p4.y))

/-- Cramer numerator for unknown 5 of the getPerspectiveTransform system. -/
def gptNum5 (s d : Quad) : ℚ :=
  det8 s.p1.x s.p1.y 1 0 0 d.p1.x (-(s.p1.x * d.p1.x)) (-(s.p1.y * d.p1.x))
    0 0 0 s.p1.x s.p1.y d.p1.y (-(s.p1.x * d.p1.y)) (-(s.p1.y * d.p1.y))
    s.p2.x s.p2.y 1 0 0 d.p2.x (-(s.p2.x * d.p2.x)) (-(s.p2.y * d.p2.x))
    0 0 0 s.p2.x s.p2.y d.p2.y (-(s.p2.x * d.p2.y)) (-(s.p2.y * d.p2.y))
    s.p3.x s.p3.y 1 0 0 d.p3.x (-(s.p3.x * d.p3.x)) (-(s.p3.y * d.p3.x))
    0 0 0 s.p3.x s.p3.y d.p3.y (-(s.p3.x * d.p3.y)) (-(s.p3.y * d.p3.y))
    s.p4.x s.p4.y 1 0 0 d.p4.x (-(s.p4.x * d.p4.x)) (-(s.p4.y * d.p4.x))
    0 0 0 s.p4.x s.p4.y d.p4.y (-(s.p4.x * d.p4.y)) (-(s.p4.y * d.p4.y))

/-- Cramer numerator for unknown 6 of the getPerspectiveTransform system. -/
def gptNum6 (s d : Quad) : ℚ :=
  det8 s.p1.x s.p1.y 1 0 0 0 d.p1.x (-(s.p1.y * d.p1.x))
    0 0 0 s.p1.x s.p1.y 1 d.p1.y (-(s.p1.y * d.p1.y))
    s.p2.x s.p2.y 1 0 0 0 d.p2.x (-(s.p2.y * d.p2.x))
    0 0 0 s.p2.x s.p2.y 1 d.p2.y (-(s.p2.y * d.p2.y))
    s.p3.x s.p3.y 1 0 0 0 d.p3.x (-(s.p3.y * d.p3.x))
    0 0 0 s.p3.x s.p3.y 1 d.p3.y (-(s.p3.y * d.p3.y))
    s.p4.x s.p4.y 1 0 0 0 d.p4.x (-(s.p4.y * d.p4.x))
    0 0 0 s.p4.x s.p4.y 1 d.p4.y (-(s.p4.y * d.p4.y))

/-- Cramer numerator for unknown 7 of the getPerspectiveTransform system. -/
def gptNum7 (s d : Quad) : ℚ :=
  det8 s.p1.x s.p1.y 1 0 0 0 (-(s.p1.x * d.p1.x)) d.p1.x
    0 0 0 s.p1.x s.p1.y 1 (-(s.p1.x * d.p1.y)) d.p1.y
    s.p2.x s.p2.y 1 0 0 0 (-(s.p2.x * d.p2.x)) d.p2.x
    0 0 0 s.p2.x s.p2.y 1 (-(s.p2.x * d.p2.y)) d.p2.y
    s.p3.x s.p3.y 1 0 0 0 (-(s.p3.x * d.p3.x)) d.p3.x
    0 0 0 s.p3.x s.p3.y 1 (-(s.p3.x * d.p3.y)) d.p3.y
    s.p4.x s.p4.y 1 0 0 0 (-(s.p4.x * d.p4.x)) d.p4.x
    0 0 0 s.p4.x s.p4.y 1 (-(s.p4.x * d.p4.y)) d.p4.y


/-- Model of `cv2.getPerspectiveTransform(src, dst)`: the exact solution of
the standard 8x8 linear system built from the 4 point correspondences
(unknowns are the first 8 entries of the homography, the last entry is 1).
It fails with cv2.error exactly when the system is singular, modelled as
`none`. -/
def getPerspectiveTransform (s d : Quad) : Option Mat3 :=
  if gptDet s d = 0 then none
  else some
    { m00 := gptNum0 s d / gptDet s d
      m01 := gptNum1 s d / gptDet s d
      m02 := gptNum2 s d / gptDet s d
      m10 := gptNum3 s d / gptDet s d
      m11 := gptNum4 s d / gptDet s d
      m12 := gptNum5 s d / gptDet s d
      m20 := gptNum6 s d / gptDet s d
      m21 := gptNum7 s d / gptDet s d
      m22 := 1 }

/-- The square quad with centre (cx,cy) whose corner offsets are the
rotation vector (a,b): this is the shape of every quad produced by
`get_quad_from_position`. -/
def squareQuad (cx cy a b : ℚ) : Quad :=
  { p1 := { x := cx - a, y := cy - b }
    p2 := { x := cx + b, y := cy - a }
    p3 := { x := cx + a, y := cy + b }
    p4 := { x := cx - b, y := cy + a } }

/-- `get_norm_corners(size)`: the corners of the normalized patch square. -/
def getNormCorners (size : ℕ) : Quad :=
  { p1 := { x := 0, y := 0 }
    p2 := { x := (size : ℚ) - 1, y := 0 }
    p3 := { x := (size : ℚ) - 1, y := (size : ℚ) - 1 }
    p4 := { x := 0, y := (size : ℚ) - 1 } }

lemma gptDet_rev (cx cy a b : ℚ) :
    gptDet (getNormCorners 256) (squareQuad cx cy a b) =
      2 * 255^6 * (a^2 + b^2) := by
  simp only [gptDet, squareQuad, getNormCorners]
  try norm_num only
  simp only [det8]
  try simp only [zero_mul, mul_zero, neg_zero, zero_add, add_zero, one_mul, mul_one,
    sub_zero, zero_sub, neg_neg, zero_div, neg_mul, mul_neg]
  simp only [det7]
  try simp only [zero_mul, mul_zero, neg_zero, zero_add, add_zero, one_mul, mul_one,
    sub_zero, zero_sub, neg_neg, neg_mul, mul_neg]
  simp only [det6]
  try simp only [zero_mul, mul_zero, neg_zero, zero_add, add_zero, one_mul, mul_one,
    sub_zero, zero_sub, neg_neg, neg_mul, mul_neg]
  simp only [det5]
  try simp only [zero_mul, mul_zero, neg_zero, zero_add, add_zero, one_mul, mul_one,
    sub_zero, zero_sub, neg_neg, neg_mul, mul_neg]
  simp only [det4]
  try simp only [zero_mul, mul_zero, neg_zero, zero_add, add_zero, one_mul, mul_one,
    sub_zero, zero_sub, neg_neg, neg_mul, mul_neg]
  simp only [det3]
  try simp only [zero_mul, mul_zero, neg_zero, zero_add, add_zero, one_mul, mul_one,
    sub_zero, zero_sub, neg_neg, neg_mul, mul_neg]
  simp only [det2]
  ring
lemma gptDet_fwd (cx cy a b : ℚ) :
    gptDet (squareQuad cx cy a b) (getNormCorners 256) =
      8 * 255^2 * (a^2 + b^2)^3 := by
  simp only [gptDet, squareQuad, getNormCorners]
  try norm_num only
  simp only [det8]
  try simp only [zero_mul, mul_zero, neg_zero, zero_add, add_zero, one_mul, mul_one,
    sub_zero, zero_sub, neg_neg, neg_mul, mul_neg]
  simp only [det7]
  try simp only [zero_mul, mul_zero, neg_zero, zero_add, add_zero, one_mul, mul_one,
    sub_zero, zero_sub, neg_neg, neg_mul, mul_neg]
  simp only [det6]
  try simp only [zero_mul, mul_zero, neg_zero, zero_add, add_zero, one_mul, mul_one,
    sub_zero, zero_sub, neg_neg, neg_mul, mul_neg]
  simp only [det5]
  try simp only [zero_mul, mul_zero, neg_zero, zero_add, add_zero, one_mul, mul_one,
    sub_zero, zero_sub, neg_neg, neg_mul, mul_neg]
  simp only [det4]
  try simp only [zero_mul, mul_zero, neg_zero, zero_add, add_zero, one_mul, mul_one,
    sub_zero, zero_sub, neg_neg, neg_mul, mul_neg]
  simp only [det3]
  try simp only [zero_mul, mul_zero, neg_zero, zero_add, add_zero, one_mul, mul_one,
    sub_zero, zero_sub, neg_neg, neg_mul, mul_neg]
  simp only [det2]
  ring

lemma gptNum0_fwd (cx cy a b : ℚ) :
    gptNum0 (squareQuad cx cy a b) (getNormCorners 256) =
      4 * 255^3 * (a + b) * (a^2 + b^2)^2 := by
  simp only [gptNum0, squareQuad, getNormCorners]
  try norm_num only
  simp only [det8]
  try simp only [zero_mul, mul_zero, neg_zero, zero_add, add_zero, one_mul, mul_one,
    sub_zero, zero_sub, neg_neg, neg_mul, mul_neg]
  simp only [det7]
  try simp only [zero_mul, mul_zero, neg_zero, zero_add, add_zero, one_mul, mul_one,
    sub_zero, zero_sub, neg_neg, neg_mul, mul_neg]
  simp only [det6]
  try simp only [zero_mul, mul_zero, neg_zero, zero_add, add_zero, one_mul, mul_one,
    sub_zero, zero_sub, neg_neg, neg_mul, mul_neg]
  simp only [det5]
  try simp only [zero_mul, mul_zero, neg_zero, zero_add, add_zero, one_mul, mul_one,
    sub_zero, zero_sub, neg_neg, neg_mul, mul_neg]
  simp only [det4]
  try simp only [zero_mul, mul_zero, neg_zero, zero_add, add_zero, one_mul, mul_one,
    sub_zero, zero_sub, neg_neg, neg_mul, mul_neg]
  simp only [det3]
  try simp only [zero_mul, mul_zero, neg_zero, zero_add, add_zero, one_mul, mul_one,
    sub_zero, zero_sub, neg_neg, neg_mul, mul_neg]
  simp only [det2]
  ring

lemma gptNum1_fwd (cx cy a b : ℚ) :
    gptNum1 (squareQuad cx cy a b) (getNormCorners 256) =
      4 * 255^3 * (b - a) * (a^2 + b^2)^2 := by
  simp only [gptNum1, squareQuad, getNormCorners]
  try norm_num only
  simp only [det8]
  try simp only [zero_mul, mul_zero, neg_zero, zero_add, add_zero, one_mul, mul_one,
    sub_zero, zero_sub, neg_neg, neg_mul, mul_neg]
  simp only [det7]
  try simp only [zero_mul, mul_zero, neg_zero, zero_add, add_zero, one_mul, mul_one,
    sub_zero, zero_sub, neg_neg, neg_mul, mul_neg]
  simp only [det6]
  try simp only [zero_mul, mul_zero, neg_zero, zero_add, add_zero, one_mul, mul_one,
    sub_zero, zero_sub, neg_neg, neg_mul, mul_neg]
  simp only [det5]
  try simp only [zero_mul, mul_zero, neg_zero, zero_add, add_zero, one_mul, mul_one,
    sub_zero, zero_sub, neg_neg, neg_mul, mul_neg]
  simp only [det4]
  try simp only [zero_mul, mul_zero, neg_zero, zero_add, add_zero, one_mul, mul_one,
    sub_zero, zero_sub, neg_neg, neg_mul, mul_neg]
  simp only [det3]
  try simp only [zero_mul, mul_zero, neg_zero, zero_add, add_zero, one_mul, mul_one,
    sub_zero, zero_sub, neg_neg, neg_mul, mul_neg]
  simp only [det2]
  ring

lemma gptNum2_fwd (cx cy a b : ℚ) :
    gptNum2 (squareQuad cx cy a b) (getNormCorners 256) =
      -(4 * 255^3 * (a^2 + b^2)^2 * ((a + b) * (cx - a) + (b - a) * (cy - b))) := by
  simp only [gptNum2, squareQuad, getNormCorners]
  try norm_num only
  simp only [det8]
  try simp only [zero_mul, mul_zero, neg_zero, zero_add, add_zero, one_mul, mul_one,
    sub_zero, zero_sub, neg_neg, neg_mul, mul_neg]
  simp only [det7]
  try simp only [zero_mul, mul_zero, neg_zero, zero_add, add_zero, one_mul, mul_one,
    sub_zero, zero_sub, neg_neg, neg_mul, mul_neg]
  simp only [det6]
  try simp only [zero_mul, mul_zero, neg_zero, zero_add, add_zero, one_mul, mul_one,
    sub_zero, zero_sub, neg_neg, neg_mul, mul_neg]
  simp only [det5]
  try simp only [zero_mul, mul_zero, neg_zero, zero_add, add_zero, one_mul, mul_one,
    sub_zero, zero_sub, neg_neg, neg_mul, mul_neg]
  simp only [det4]
  try simp only [zero_mul, mul_zero, neg_zero, zero_add, add_zero, one_mul, mul_one,
    sub_zero, zero_sub, neg_neg, neg_mul, mul_neg]
  simp only [det3]
  try simp only [zero_mul, mul_zero, neg_zero, zero_add, add_zero, one_mul, mul_one,
    sub_zero, zero_sub, neg_neg, neg_mul, mul_neg]
  simp only [det2]
  ring

lemma gptNum3_fwd (cx cy a b : ℚ) :
    gptNum3 (squareQuad cx cy a b) (getNormCorners 256) =
      4 * 255^3 * (a - b) * (a^2 + b^2)^2 := by
  simp only [gptNum3, squareQuad, getNormCorners]
  try norm_num only
  simp only [det8]
  try simp only [zero_mul, mul_zero, neg_zero, zero_add, add_zero, one_mul, mul_one,
    sub_zero, zero_sub, neg_neg, neg_mul, mul_neg]
  simp only [det7]
  try simp only [zero_mul, mul_zero, neg_zero, zero_add, add_zero, one_mul, mul_one,
    sub_zero, zero_sub, neg_neg, neg_mul, mul_neg]
  simp only [det6]
  try simp only [zero_mul, mul_zero, neg_zero, zero_add, add_zero, one_mul, mul_one,
    sub_zero, zero_sub, neg_neg, neg_mul, mul_neg]
  simp only [det5]
  try simp only [zero_mul, mul_zero, neg_zero, zero_add, add_zero, one_mul, mul_one,
    sub_zero, zero_sub, neg_neg, neg_mul, mul_neg]
  simp only [det4]
  try simp only [zero_mul, mul_zero, neg_zero, zero_add, add_zero, one_mul, mul_one,
    sub_zero, zero_sub, neg_neg, neg_mul, mul_neg]
  simp only [det3]
  try simp only [zero_mul, mul_zero, neg_zero, zero_add, add_zero, one_mul, mul_one,
    sub_zero, zero_sub, neg_neg, neg_mul, mul_neg]
  simp only [det2]
  ring

lemma gptNum4_fwd (cx cy a b : ℚ) :
    gptNum4 (squareQuad cx cy a b) (getNormCorners 256) =
      4 * 255^3 * (a + b) * (a^2 + b^2)^2 := by
  simp only [gptNum4, squareQuad, getNormCorners]
  try norm_num only
  simp only [det8]
  try simp only [zero_mul, mul_zero, neg_zero, zero_add, add_zero, one_mul, mul_one,
    sub_zero, zero_sub, neg_neg, neg_mul, mul_neg]
  simp only [det7]
  try simp only [zero_mul, mul_zero, neg_zero, zero_add, add_zero, one_mul, mul_one,
    sub_zero, zero_sub, neg_neg, neg_mul, mul_neg]
  simp only [det6]
  try simp only [zero_mul, mul_zero, neg_zero, zero_add, add_zero, one_mul, mul_one,
    sub_zero, zero_sub, neg_neg, neg_mul, mul_neg]
  simp only [det5]
  try simp only [zero_mul, mul_zero, neg_zero, zero_add, add_zero, one_mul, mul_one,
    sub_zero, zero_sub, neg_neg, neg_mul, mul_neg]
  simp only [det4]
  try simp only [zero_mul, mul_zero, neg_zero, zero_add, add_zero, one_mul, mul_one,
    sub_zero, zero_sub, neg_neg, neg_mul, mul_neg]
  simp only [det3]
  try simp only [zero_mul, mul_zero, neg_zero, zero_add, add_zero, one_mul, mul_one,
    sub_zero, zero_sub, neg_neg, neg_mul, mul_neg]
  simp only [det2]
  ring

lemma gptNum5_fwd (cx cy a b : ℚ) :
    gptNum5 (squareQuad cx cy a b) (getNormCorners 256) =
      -(4 * 255^3 * (a^2 + b^2)^2 * ((a - b) * (cx - a) + (a + b) * (cy - b))) := by
  simp only [gptNum5, squareQuad, getNormCorners]
  try norm_num only
  simp only [det8]
  try simp only [zero_mul, mul_zero, neg_zero, zero_add, add_zero, one_mul, mul_one,
    sub_zero, zero_sub, neg_neg, neg_mul, mul_neg]
  simp only [det7]
  try simp only [zero_mul, mul_zero, neg_zero, zero_add, add_zero, one_mul, mul_one,
    sub_zero, zero_sub, neg_neg, neg_mul, mul_neg]
  simp only [det6]
  try simp only [zero_mul, mul_zero, neg_zero, zero_add, add_zero, one_mul, mul_one,
    sub_zero, zero_sub, neg_neg, neg_mul, mul_neg]
  simp only [det5]
  try simp only [zero_mul, mul_zero, neg_zero, zero_add, add_zero, one_mul, mul_one,
    sub_zero, zero_sub, neg_neg, neg_mul, mul_neg]
  simp only [det4]
  try simp only [zero_mul, mul_zero, neg_zero, zero_add, add_zero, one_mul, mul_one,
    sub_zero, zero_sub, neg_neg, neg_mul, mul_neg]
  simp only [det3]
  try simp only [zero_mul, mul_zero, neg_zero, zero_add, add_zero, one_mul, mul_one,
    sub_zero, zero_sub, neg_neg, neg_mul, mul_neg]
  simp only [det2]
  ring

lemma gptNum6_fwd (cx cy a b : ℚ) :
    gptNum6 (squareQuad cx cy a b) (getNormCorners 256) =
      0 := by
  simp only [gptNum6, squareQuad, getNormCorners]
  try norm_num only
  simp only [det8]
  try simp only [zero_mul, mul_zero, neg_zero, zero_add, add_zero, one_mul, mul_one,
    sub_zero, zero_sub, neg_neg, neg_mul, mul_neg]
  simp only [det7]
  try simp only [zero_mul, mul_zero, neg_zero, zero_add, add_zero, one_mul, mul_one,
    sub_zero, zero_sub, neg_neg, neg_mul, mul_neg]
  simp only [det6]
  try simp only [zero_mul, mul_zero, neg_zero, zero_add, add_zero, one_mul, mul_one,
    sub_zero, zero_sub, neg_neg, neg_mul, mul_neg]
  simp only [det5]
  try simp only [zero_mul, mul_zero, neg_zero, zero_add, add_zero, one_mul, mul_one,
    sub_zero, zero_sub, neg_neg, neg_mul, mul_neg]
  simp only [det4]
  try simp only [zero_mul, mul_zero, neg_zero, zero_add, add_zero, one_mul, mul_one,
    sub_zero, zero_sub, neg_neg, neg_mul, mul_neg]
  simp only [det3]
  try simp only [zero_mul, mul_zero, neg_zero, zero_add, add_zero, one_mul, mul_one,
    sub_zero, zero_sub, neg_neg, neg_mul, mul_neg]
  simp only [det2]
  ring

lemma gptNum7_fwd (cx cy a b : ℚ) :
    gptNum7 (squareQuad cx cy a b) (getNormCorners 256) =
      0 := by
  simp only [gptNum7, squareQuad, getNormCorners]
  try norm_num only
  simp only [det8]
  try simp only [zero_mul, mul_zero, neg_zero, zero_add, add_zero, one_mul, mul_one,
    sub_zero, zero_sub, neg_neg, neg_mul, mul_neg]
  simp only [det7]
  try simp only [zero_mul, mul_zero, neg_zero, zero_add, add_zero, one_mul, mul_one,
    sub_zero, zero_sub, neg_neg, neg_mul, mul_neg]
  simp only [det6]
  try simp only [zero_mul, mul_zero, neg_zero, zero_add, add_zero, one_mul, mul_one,
    sub_zero, zero_sub, neg_neg, neg_mul, mul_neg]
  simp only [det5]
  try simp only [zero_mul, mul_zero, neg_zero, zero_add, add_zero, one_mul, mul_one,
    sub_zero, zero_sub, neg_neg, neg_mul, mul_neg]
  simp only [det4]
  try simp only [zero_mul, mul_zero, neg_zero, zero_add, add_zero, one_mul, mul_one,
    sub_zero, zero_sub, neg_neg, neg_mul, mul_neg]
  simp only [det3]
  try simp only [zero_mul, mul_zero, neg_zero, zero_add, add_zero, one_mul, mul_one,
    sub_zero, zero_sub, neg_neg, neg_mul, mul_neg]
  simp only [det2]
  ring

lemma gptNum0_rev (cx cy a b : ℚ) :
    gptNum0 (getNormCorners 256) (squareQuad cx cy a b) =
      2 * 255^5 * (a + b) * (a^2 + b^2) := by
  simp only [gptNum0, squareQuad, getNormCorners]
  try norm_num only
  simp only [det8]
  try simp only [zero_mul, mul_zero, neg_zero, zero_add, add_zero, one_mul, mul_one,
    sub_zero, zero_sub, neg_neg, neg_mul, mul_neg]
  simp only [det7]
  try simp only [zero_mul, mul_zero, neg_zero, zero_add, add_zero, one_mul, mul_one,
    sub_zero, zero_sub, neg_neg, neg_mul, mul_neg]
  simp only [det6]
  try simp only [zero_mul, mul_zero, neg_zero, zero_add, add_zero, one_mul, mul_one,
    sub_zero, zero_sub, neg_neg, neg_mul, mul_neg]
  simp only [det5]
  try simp only [zero_mul, mul_zero, neg_zero, zero_add, add_zero, one_mul, mul_one,
    sub_zero, zero_sub, neg_neg, neg_mul, mul_neg]
  simp only [det4]
  try simp only [zero_mul, mul_zero, neg_zero, zero_add, add_zero, one_mul, mul_one,
    sub_zero, zero_sub, neg_neg, neg_mul, mul_neg]
  simp only [det3]
  try simp only [zero_mul, mul_zero, neg_zero, zero_add, add_zero, one_mul, mul_one,
    sub_zero, zero_sub, neg_neg, neg_mul, mul_neg]
  simp only [det2]
  ring

lemma gptNum1_rev (cx cy a b : ℚ) :
    gptNum1 (getNormCorners 256) (squareQuad cx cy a b) =
      2 * 255^5 * (a - b) * (a^2 + b^2) := by
  simp only [gptNum1, squareQuad, getNormCorners]
  try norm_num only
  simp only [det8]
  try simp only [zero_mul, mul_zero, neg_zero, zero_add, add_zero, one_mul, mul_one,
    sub_zero, zero_sub, neg_neg, neg_mul, mul_neg]
  simp only [det7]
  try simp only [zero_mul, mul_zero, neg_zero, zero_add, add_zero, one_mul, mul_one,
    sub_zero, zero_sub, neg_neg, neg_mul, mul_neg]
  simp only [det6]
  try simp only [zero_mul, mul_zero, neg_zero, zero_add, add_zero, one_mul, mul_one,
    sub_zero, zero_sub, neg_neg, neg_mul, mul_neg]
  simp only [det5]
  try simp only [zero_mul, mul_zero, neg_zero, zero_add, add_zero, one_mul, mul_one,
    sub_zero, zero_sub, neg_neg, neg_mul, mul_neg]
  simp only [det4]
  try simp only [zero_mul, mul_zero, neg_zero, zero_add, add_zero, one_mul, mul_one,
    sub_zero, zero_sub, neg_neg, neg_mul, mul_neg]
  simp only [det3]
  try simp only [zero_mul, mul_zero, neg_zero, zero_add, add_zero, one_mul, mul_one,
    sub_zero, zero_sub, neg_neg, neg_mul, mul_neg]
  simp only [det2]
  ring

lemma gptNum2_rev (cx cy a b : ℚ) :
    gptNum2 (getNormCorners 256) (squareQuad cx cy a b) =
      2 * 255^6 * (a^2 + b^2) * (cx - a) := by
  simp only [gptNum2, squareQuad, getNormCorners]
  try norm_num only
  simp only [det8]
  try simp only [zero_mul, mul_zero, neg_zero, zero_add, add_zero, one_mul, mul_one,
    sub_zero, zero_sub, neg_neg, neg_mul, mul_neg]
  simp only [det7]
  try simp only [zero_mul, mul_zero, neg_zero, zero_add, add_zero, one_mul, mul_one,
    sub_zero, zero_sub, neg_neg, neg_mul, mul_neg]
  simp only [det6]
  try simp only [zero_mul, mul_zero, neg_zero, zero_add, add_zero, one_mul, mul_one,
    sub_zero, zero_sub, neg_neg, neg_mul, mul_neg]
  simp only [det5]
  try simp only [zero_mul, mul_zero, neg_zero, zero_add, add_zero, one_mul, mul_one,
    sub_zero, zero_sub, neg_neg, neg_mul, mul_neg]
  simp only [det4]
  try simp only [zero_mul, mul_zero, neg_zero, zero_add, add_zero, one_mul, mul_one,
    sub_zero, zero_sub, neg_neg, neg_mul, mul_neg]
  simp only [det3]
  try simp only [zero_mul, mul_zero, neg_zero, zero_add, add_zero, one_mul, mul_one,
    sub_zero, zero_sub, neg_neg, neg_mul, mul_neg]
  simp only [det2]
  ring

lemma gptNum3_rev (cx cy a b : ℚ) :
    gptNum3 (getNormCorners 256) (squareQuad cx cy a b) =
      2 * 255^5 * (b - a) * (a^2 + b^2) := by
  simp only [gptNum3, squareQuad, getNormCorners]
  try norm_num only
  simp only [det8]
  try simp only [zero_mul, mul_zero, neg_zero, zero_add, add_zero, one_mul, mul_one,
    sub_zero, zero_sub, neg_neg, neg_mul, mul_neg]
  simp only [det7]
  try simp only [zero_mul, mul_zero, neg_zero, zero_add, add_zero, one_mul, mul_one,
    sub_zero, zero_sub, neg_neg, neg_mul, mul_neg]
  simp only [det6]
  try simp only [zero_mul, mul_zero, neg_zero, zero_add, add_zero, one_mul, mul_one,
    sub_zero, zero_sub, neg_neg, neg_mul, mul_neg]
  simp only [det5]
  try simp only [zero_mul, mul_zero, neg_zero, zero_add, add_zero, one_mul, mul_one,
    sub_zero, zero_sub, neg_neg, neg_mul, mul_neg]
  simp only [det4]
  try simp only [zero_mul, mul_zero, neg_zero, zero_add, add_zero, one_mul, mul_one,
    sub_zero, zero_sub, neg_neg, neg_mul, mul_neg]
  simp only [det3]
  try simp only [zero_mul, mul_zero, neg_zero, zero_add, add_zero, one_mul, mul_one,
    sub_zero, zero_sub, neg_neg, neg_mul, mul_neg]
  simp only [det2]
  ring

lemma gptNum4_rev (cx cy a b : ℚ) :
    gptNum4 (getNormCorners 256) (squareQuad cx cy a b) =
      2 * 255^5 * (b + a) * (a^2 + b^2) := by
  simp only [gptNum4, squareQuad, getNormCorners]
  try norm_num only
  simp only [det8]
  try simp only [zero_mul, mul_zero, neg_zero, zero_add, add_zero, one_mul, mul_one,
    sub_zero, zero_sub, neg_neg, neg_mul, mul_neg]
  simp only [det7]
  try simp only [zero_mul, mul_zero, neg_zero, zero_add, add_zero, one_mul, mul_one,
    sub_zero, zero_sub, neg_neg, neg_mul, mul_neg]
  simp only [det6]
  try simp only [zero_mul, mul_zero, neg_zero, zero_add, add_zero, one_mul, mul_one,
    sub_zero, zero_sub, neg_neg, neg_mul, mul_neg]
  simp only [det5]
  try simp only [zero_mul, mul_zero, neg_zero, zero_add, add_zero, one_mul, mul_one,
    sub_zero, zero_sub, neg_neg, neg_mul, mul_neg]
  simp only [det4]
  try simp only [zero_mul, mul_zero, neg_zero, zero_add, add_zero, one_mul, mul_one,
    sub_zero, zero_sub, neg_neg, neg_mul, mul_neg]
  simp only [det3]
  try simp only [zero_mul, mul_zero, neg_zero, zero_add, add_zero, one_mul, mul_one,
    sub_zero, zero_sub, neg_neg, neg_mul, mul_neg]
  simp only [det2]
  ring

lemma gptNum5_rev (cx cy a b : ℚ) :
    gptNum5 (getNormCorners 256) (squareQuad cx cy a b) =
      2 * 255^6 * (a^2 + b^2) * (cy - b) := by
  simp only [gptNum5, squareQuad, getNormCorners]
  try norm_num only
  simp only [det8]
  try simp only [zero_mul, mul_zero, neg_zero, zero_add, add_zero, one_mul, mul_one,
    sub_zero, zero_sub, neg_neg, neg_mul, mul_neg]
  simp only [det7]
  try simp only [zero_mul, mul_zero, neg_zero, zero_add, add_zero, one_mul, mul_one,
    sub_zero, zero_sub, neg_neg, neg_mul, mul_neg]
  simp only [det6]
  try simp only [zero_mul, mul_zero, neg_zero, zero_add, add_zero, one_mul, mul_one,
    sub_zero, zero_sub, neg_neg, neg_mul, mul_neg]
  simp only [det5]
  try simp only [zero_mul, mul_zero, neg_zero, zero_add, add_zero, one_mul, mul_one,
    sub_zero, zero_sub, neg_neg, neg_mul, mul_neg]
  simp only [det4]
  try simp only [zero_mul, mul_zero, neg_zero, zero_add, add_zero, one_mul, mul_one,
    sub_zero, zero_sub, neg_neg, neg_mul, mul_neg]
  simp only [det3]
  try simp only [zero_mul, mul_zero, neg_zero, zero_add, add_zero, one_mul, mul_one,
    sub_zero, zero_sub, neg_neg, neg_mul, mul_neg]
  simp only [det2]
  ring

lemma gptNum6_rev (cx cy a b : ℚ) :
    gptNum6 (getNormCorners 256) (squareQuad cx cy a b) =
      0 := by
  simp only [gptNum6, squareQuad, getNormCorners]
  try norm_num only
  simp only [det8]
  try simp only [zero_mul, mul_zero, neg_zero, zero_add, add_zero, one_mul, mul_one,
    sub_zero, zero_sub, neg_neg, neg_mul, mul_neg]
  simp only [det7]
  try simp only [zero_mul, mul_zero, neg_zero, zero_add, add_zero, one_mul, mul_one,
    sub_zero, zero_sub, neg_neg, neg_mul, mul_neg]
  simp only [det6]
  try simp only [zero_mul, mul_zero, neg_zero, zero_add, add_zero, one_mul, mul_one,
    sub_zero, zero_sub, neg_neg, neg_mul, mul_neg]
  simp only [det5]
  try simp only [zero_mul, mul_zero, neg_zero, zero_add, add_zero, one_mul, mul_one,
    sub_zero, zero_sub, neg_neg, neg_mul, mul_neg]
  simp only [det4]
  try simp only [zero_mul, mul_zero, neg_zero, zero_add, add_zero, one_mul, mul_one,
    sub_zero, zero_sub, neg_neg, neg_mul, mul_neg]
  simp only [det3]
  try simp only [zero_mul, mul_zero, neg_zero, zero_add, add_zero, one_mul, mul_one,
    sub_zero, zero_sub, neg_neg, neg_mul, mul_neg]
  simp only [det2]
  ring

lemma gptNum7_rev (cx cy a b : ℚ) :
    gptNum7 (getNormCorners 256) (squareQuad cx cy a b) =
      0 := by
  simp only [gptNum7, squareQuad, getNormCorners]
  try norm_num only
  simp only [det8]
  try simp only [zero_mul, mul_zero, neg_zero, zero_add, add_zero, one_mul, mul_one,
    sub_zero, zero_sub, neg_neg, neg_mul, mul_neg]
  simp only [det7]
  try simp only [zero_mul, mul_zero, neg_zero, zero_add, add_zero, one_mul, mul_one,
    sub_zero, zero_sub, neg_neg, neg_mul, mul_neg]
  simp only [det6]
  try simp only [zero_mul, mul_zero, neg_zero, zero_add, add_zero, one_mul, mul_one,
    sub_zero, zero_sub, neg_neg, neg_mul, mul_neg]
  simp only [det5]
  try simp only [zero_mul, mul_zero, neg_zero, zero_add, add_zero, one_mul, mul_one,
    sub_zero, zero_sub, neg_neg, neg_mul, mul_neg]
  simp only [det4]
  try simp only [zero_mul, mul_zero, neg_zero, zero_add, add_zero, one_mul, mul_one,
    sub_zero, zero_sub, neg_neg, neg_mul, mul_neg]
  simp only [det3]
  try simp only [zero_mul, mul_zero, neg_zero, zero_add, add_zero, one_mul, mul_one,
    sub_zero, zero_sub, neg_neg, neg_mul, mul_neg]
  simp only [det2]
  ring

/-- The homography produced by the forward solve (quad to normalized
square) for a nondegenerate square quad: the inverse of the affine
similarity mapping the normalized square onto the quad. -/
def fwdSquareMat (cx cy a b : ℚ) : Mat3 :=
  { m00 := 255 * (a + b) / (2 * (a^2 + b^2))
    m01 := 255 * (b - a) / (2 * (a^2 + b^2))
    m02 := -(255 * ((a + b) * (cx - a) + (b - a) * (cy - b)) / (2 * (a^2 + b^2)))
    m10 := 255 * (a - b) / (2 * (a^2 + b^2))
    m11 := 255 * (a + b) / (2 * (a^2 + b^2))
    m12 := -(255 * ((a - b) * (cx - a) + (a + b) * (cy - b)) / (2 * (a^2 + b^2)))
    m20 := 0
    m21 := 0
    m22 := 1 }

/-- The homography produced by the reverse solve (normalized square to
quad) for a nondegenerate square quad: the affine similarity mapping the
normalized square onto the quad. -/
def revSquareMat (cx cy a b : ℚ) : Mat3 :=
  { m00 := (a + b) / 255
    m01 := (a - b) / 255
    m02 := cx - a
    m10 := (b - a) / 255
    m11 := (b + a) / 255
    m12 := cy - b
    m20 := 0
    m21 := 0
    m22 := 1 }

lemma sq_sum_ne_zero {a b : ℚ} (h : ¬ (a = 0 ∧ b = 0)) : a^2 + b^2 ≠ 0 := by
  rcases not_and_or.mp h with ha | hb
  · have h2 : 0 < a^2 := by positivity
    nlinarith [sq_nonneg b]
  · have h2 : 0 < b^2 := by positivity
    nlinarith [sq_nonneg a]

lemma gpt_fwd_square (cx cy a b : ℚ) (h : ¬ (a = 0 ∧ b = 0)) :
    getPerspectiveTransform (squareQuad cx cy a b) (getNormCorners 256) =
      some (fwdSquareMat cx cy a b) := by
  have hs : a^2 + b^2 ≠ 0 := sq_sum_ne_zero h
  have hd : gptDet (squareQuad cx cy a b) (getNormCorners 256) ≠ 0 := by
    rw [gptDet_fwd]
    positivity
  rw [getPerspectiveTransform, if_neg hd]
  congr 1
  rw [Mat3.mk.injEq]
  rw [gptDet_fwd, gptNum0_fwd, gptNum1_fwd, gptNum2_fwd, gptNum3_fwd, gptNum4_fwd,
    gptNum5_fwd, gptNum6_fwd, gptNum7_fwd]
  rw [fwdSquareMat]
  refine ⟨?_, ?_, ?_, ?_, ?_, ?_, ?_, ?_, rfl⟩ <;> field_simp <;> ring

lemma gpt_rev_square (cx cy a b : ℚ) (h : ¬ (a = 0 ∧ b = 0)) :
    getPerspectiveTransform (getNormCorners 256) (squareQuad cx cy a b) =
      some (revSquareMat cx cy a b) := by
  have hs : a^2 + b^2 ≠ 0 := sq_sum_ne_zero h
  have hd : gptDet (getNormCorners 256) (squareQuad cx cy a b) ≠ 0 := by
    rw [gptDet_rev]
    positivity
  rw [getPerspectiveTransform, if_neg hd]
  congr 1
  rw [Mat3.mk.injEq]
  rw [gptDet_rev, gptNum0_rev, gptNum1_rev, gptNum2_rev, gptNum3_rev, gptNum4_rev,
    gptNum5_rev, gptNum6_rev, gptNum7_rev]
  rw [revSquareMat]
  refine ⟨?_, ?_, ?_, ?_, ?_, ?_, ?_, ?_, rfl⟩ <;> field_simp <;> ring

lemma gpt_fwd_none_iff (cx cy a b : ℚ) :
    getPerspectiveTransform (squareQuad cx cy a b) (getNormCorners 256) = none ↔
      (a = 0 ∧ b = 0) := by
  rw [getPerspectiveTransform]
  constructor
  · intro hnone
    by_contra h
    have hs : a^2 + b^2 ≠ 0 := sq_sum_ne_zero h
    rw [if_neg (by rw [gptDet_fwd]; positivity)] at hnone
    exact Option.noConfusion hnone
  · intro ⟨ha, hb⟩
    subst ha
    subst hb
    rw [if_pos (by rw [gptDet_fwd]; norm_num)]

lemma gpt_rev_none_iff (cx cy a b : ℚ) :
    getPerspectiveTransform (getNormCorners 256) (squareQuad cx cy a b) = none ↔
      (a = 0 ∧ b = 0) := by
  rw [getPerspectiveTransform]
  constructor
  · intro hnone
    by_contra h
    have hs : a^2 + b^2 ≠ 0 := sq_sum_ne_zero h
    rw [if_neg (by rw [gptDet_rev]; positivity)] at hnone
    exact Option.noConfusion hnone
  · intro ⟨ha, hb⟩
    subst ha
    subst hb
    rw [if_pos (by rw [gptDet_rev]; norm_num)]

/-- Library numeric primitives with irrational pointwise values, taken as
parameters of the embedding: math.cos, math.sin, np.sqrt (elementwise),
the two cv2 colour conversions (per pixel), cv2.getGaussianKernel (the
1-D kernel weights for a given ksize at sigma 0), and cv2.inpaint. -/
structure CvPrims where
  cosQ : ℚ → ℚ
  sinQ : ℚ → ℚ
  sqrtQ : ℚ → ℚ
  bgrToLab : ℚ × ℚ × ℚ → ℚ × ℚ × ℚ
  labToBgr : ℚ × ℚ × ℚ → ℚ × ℚ × ℚ
  gaussKernel : ℕ → List ℚ
  inpaint3 : (ℤ → ℤ → ℚ × ℚ × ℚ) → (ℤ → ℤ → ℚ) → ℕ → (ℤ → ℤ → ℚ × ℚ × ℚ)

/-- A single-channel image or mask: a total function from (row, column) to
a rational sample value. -/
abbrev Img : Type := ℤ → ℤ → ℚ

/-- A three-channel (BGR) image. -/
abbrev Img3 : Type := ℤ → ℤ → ℚ × ℚ × ℚ

/-- `math.radians`. -/
def radiansQ (deg : ℚ) : ℚ := deg * (piQ / 180)

/-- `get_quad_from_position`: the rotated square of side width*scale
(height is forced equal to the scaled width) centred at the record's
centre. -/
def getQuadFromPosition (P : CvPrims) (pos : MouthPos) (scale : ℚ) : Quad :=
  let cx := pos.centerX
  let cy := pos.centerY
  let w := pos.width * scale
  let cosA := P.cosQ (radiansQ pos.rotation)
  let sinA := P.sinQ (radiansQ pos.rotation)
  let halfW := w / 2
  let halfH := w / 2
  { p1 := { x := cx + ((-halfW) * cosA - (-halfH) * sinA)
            y := cy + ((-halfW) * sinA + (-halfH) * cosA) }
    p2 := { x := cx + (halfW * cosA - (-halfH) * sinA)
            y := cy + (halfW * sinA + (-halfH) * cosA) }
    p3 := { x := cx + (halfW * cosA - halfH * sinA)
            y := cy + (halfW * sinA + halfH * cosA) }
    p4 := { x := cx + ((-halfW) * cosA - halfH * sinA)
            y := cy + ((-halfW) * sinA + halfH * cosA) } }

lemma getQuad_eq_squareQuad (P : CvPrims) (pos : MouthPos) (scale : ℚ) :
    getQuadFromPosition P pos scale =
      squareQuad pos.centerX pos.centerY
        (pos.width * scale / 2 *
          (P.cosQ (radiansQ pos.rotation) - P.sinQ (radiansQ pos.rotation)))
        (pos.width * scale / 2 *
          (P.cosQ (radiansQ pos.rotation) + P.sinQ (radiansQ pos.rotation))) := by
  simp only [getQuadFromPosition, squareQuad, Quad.mk.injEq, Pt.mk.injEq]
  refine ⟨⟨?_, ?_⟩, ⟨?_, ?_⟩, ⟨?_, ?_⟩, ⟨?_, ?_⟩⟩ <;> ring

/-- Determinant of a 3x3 homography matrix. -/
def det3Mat (M : Mat3) : ℚ :=
  M.m00 * (M.m11 * M.m22 - M.m12 * M.m21)
    - M.m01 * (M.m10 * M.m22 - M.m12 * M.m20)
    + M.m02 * (M.m10 * M.m21 - M.m11 * M.m20)

/-- Exact inverse of a 3x3 matrix via the adjugate, `none` if singular
(model of the matrix inversion performed inside cv2.warpPerspective). -/
def inv3 (M : Mat3) : Option Mat3 :=
  if det3Mat M = 0 then none
  else some
    { m00 := (M.m11 * M.m22 - M.m12 * M.m21) / det3Mat M
      m01 := (M.m02 * M.m21 - M.m01 * M.m22) / det3Mat M
      m02 := (M.m01 * M.m12 - M.m02 * M.m11) / det3Mat M
      m10 := (M.m12 * M.m20 - M.m10 * M.m22) / det3Mat M
      m11 := (M.m00 * M.m22 - M.m02 * M.m20) / det3Mat M
      m12 := (M.m02 * M.m10 - M.m00 * M.m12) / det3Mat M
      m20 := (M.m10 * M.m21 - M.m11 * M.m20) / det3Mat M
      m21 := (M.m01 * M.m20 - M.m00 * M.m21) / det3Mat M
      m22 := (M.m00 * M.m11 - M.m01 * M.m10) / det3Mat M }

/-- Apply a homography to a point with projective division, `none` when
the denominator vanishes (the sample is then outside any source pixel). -/
def projPoint (M : Mat3) (x y : ℚ) : Option (ℚ × ℚ) :=
  if M.m20 * x + M.m21 * y + M.m22 = 0 then none
  else some ((M.m00 * x + M.m01 * y + M.m02) / (M.m20 * x + M.m21 * y + M.m22),
             (M.m10 * x + M.m11 * y + M.m12) / (M.m20 * x + M.m21 * y + M.m22))

/-- Bilinear sample of a single-channel image of size srcH x srcW at a
rational source position, with constant-0 border (cv2 INTER_LINEAR with
BORDER_CONSTANT value 0). -/
def bilinearAt (img : Img) (srcH srcW : ℕ) (sx sy : ℚ) : ℚ :=
  let x0 : ℤ := Int.floor sx
  let y0 : ℤ := Int.floor sy
  let fx := sx - (x0 : ℚ)
  let fy := sy - (y0 : ℚ)
  let tap : ℤ → ℤ → ℚ := fun yy xx =>
    if 0 ≤ xx ∧ xx < (srcW : ℤ) ∧ 0 ≤ yy ∧ yy < (srcH : ℤ) then img yy xx else 0
  (1 - fy) * ((1 - fx) * tap y0 x0 + fx * tap y0 (x0 + 1)) +
    fy * ((1 - fx) * tap (y0 + 1) x0 + fx * tap (y0 + 1) (x0 + 1))

/-- Model of `cv2.warpPerspective(src, M, dsize)`: each destination pixel
is mapped through the inverse of M into the source and sampled
bilinearly; a non-invertible M yields the zero image. -/
def warpPerspective (img : Img) (M : Mat3) (srcH srcW : ℕ) (y x : ℤ) : ℚ :=
    match inv3 M with
    | none => 0
    | some Mi =>
      match projPoint Mi (x : ℚ) (y : ℚ) with
      | none => 0
      | some sp => bilinearAt img srcH srcW sp.1 sp.2

/-- Three-channel warp, channelwise. -/
def warpPerspective3 (img : Img3) (M : Mat3) (srcH srcW : ℕ) (y x : ℤ) : ℚ × ℚ × ℚ :=
    (warpPerspective (fun yy xx => (img yy xx).1) M srcH srcW y x,
     warpPerspective (fun yy xx => (img yy xx).2.1) M srcH srcW y x,
     warpPerspective (fun yy xx => (img yy xx).2.2) M srcH srcW y x)

/-- `warp_to_norm`: solve the homography from the quad to the normalized
corners and warp the frame with it; the solve failure (cv2.error) is
propagated as `none`. -/
def warpToNorm (frame : Img3) (frameH frameW : ℕ) (quad : Quad) (normSize : ℕ) :
    Option (Img3 × Mat3) :=
  (getPerspectiveTransform quad (getNormCorners normSize)).map
    (fun M => (warpPerspective3 frame M frameH frameW, M))

/-- BORDER_REFLECT_101 index mapping for a grid of size n (single
reflection; valid for kernel radius below n, which holds at every use
site). -/
def reflect101 (n : ℕ) (t : ℤ) : ℤ :=
  if t < 0 then -t else if (n : ℤ) ≤ t then 2 * ((n : ℤ) - 1) - t else t

/-- Weighted sum of samples f(off), f(off+1), ... against a kernel. -/
def convSum (f : ℤ → ℚ) : List ℚ → ℤ → ℚ
  | [], _ => 0
  | k :: ks, off => k * f off + convSum f ks (off + 1)

/-- Horizontal pass of a separable blur on an n x n grid. -/
def blurRow (kernel : List ℚ) (n : ℕ) (m : Img) (y x : ℤ) : ℚ :=
  convSum (fun t => m y (reflect101 n t)) kernel
    (x - (((kernel.length : ℤ) - 1) / 2))

/-- Vertical pass of a separable blur on an n x n grid. -/
def blurCol (kernel : List ℚ) (n : ℕ) (m : Img) (y x : ℤ) : ℚ :=
  convSum (fun t => m (reflect101 n t) x) kernel
    (y - (((kernel.length : ℤ) - 1) / 2))

/-- Model of `cv2.GaussianBlur` with a given separable kernel:
horizontal then vertical pass with BORDER_REFLECT_101. -/
def gaussBlur (kernel : List ℚ) (n : ℕ) (m : Img) (y x : ℤ) : ℚ :=
  blurCol kernel n (blurRow kernel n m) y x

/-- Python `int()`: truncation toward zero. -/
def ratTrunc (q : ℚ) : ℤ := if q < 0 then Int.ceil q else Int.floor q

/-- `(v * 255).astype(np.uint8)` for mask values in [0,1]: truncation of
the scaled value (wrap-around above 255 never occurs at the use sites). -/
def quant255 (q : ℚ) : ℤ := ratTrunc (q * 255)

/-- The integers a, a+1, ..., a+n-1. -/
def intRange (a : ℤ) : ℕ → List ℤ
  | 0 => []
  | n + 1 => a :: intRange (a + 1) n

/-- Offsets -rw..rw of the structuring element bounding box. -/
def seOffsets (rw : ℕ) : List ℤ := intRange (-(rw : ℤ)) (2 * rw + 1)

/-- Grayscale dilation on an n x n grid by the elliptical (disc-shaped)
structuring element of radius rw (model of cv2.dilate with
getStructuringElement(MORPH_ELLIPSE, (2rw+1, 2rw+1))); uint8 samples are
nonnegative, so taps outside the disc or the grid contribute 0 to the
running maximum. -/
def dilateQ (g : ℤ → ℤ → ℤ) (n : ℕ) (rw : ℕ) (y x : ℤ) : ℤ :=
    (seOffsets rw).foldl (fun acc dy =>
      (seOffsets rw).foldl (fun acc2 dx =>
        if dy ^ 2 + dx ^ 2 ≤ (rw : ℤ) ^ 2 ∧ 0 ≤ y + dy ∧ y + dy < (n : ℤ) ∧
            0 ≤ x + dx ∧ x + dx < (n : ℤ)
        then max acc2 (g (y + dy) (x + dx)) else acc2) acc) 0

/-- Clip to [0,1] (`np.clip(v, 0, 1)`). -/
def clip01 (q : ℚ) : ℚ := min (max q 0) 1

/-- The pre-blur stage of `create_ellipse_mask_with_clip`: a filled
ellipse (ideal rasterization of cv2.ellipse, with axis clamps) whose top
rows are zeroed above the clip line. -/
def ellipseClipped (size : ℕ) (scaleX scaleY topClipFrac : ℚ) (y x : ℤ) : ℚ :=
  if 0 ≤ y ∧ y < (size : ℤ) ∧ 0 ≤ x ∧ x < (size : ℤ) ∧
      ¬ (0 < ratTrunc (((size : ℤ) / 2 : ℤ) - ratTrunc ((size : ℚ) * scaleY / 2) * topClipFrac) ∧
         y < ratTrunc (((size : ℤ) / 2 : ℤ) - ratTrunc ((size : ℚ) * scaleY / 2) * topClipFrac)) ∧
      (x - (size : ℤ) / 2) ^ 2 * ratTrunc ((size : ℚ) * scaleY / 2) ^ 2 +
        (y - (size : ℤ) / 2) ^ 2 * ratTrunc ((size : ℚ) * scaleX / 2) ^ 2 ≤
        ratTrunc ((size : ℚ) * scaleX / 2) ^ 2 * ratTrunc ((size : ℚ) * scaleY / 2) ^ 2 ∧
      -ratTrunc ((size : ℚ) * scaleX / 2) ≤ x - (size : ℤ) / 2 ∧
      x - (size : ℤ) / 2 ≤ ratTrunc ((size : ℚ) * scaleX / 2) ∧
      -ratTrunc ((size : ℚ) * scaleY / 2) ≤ y - (size : ℤ) / 2 ∧
      y - (size : ℤ) / 2 ≤ ratTrunc ((size : ℚ) * scaleY / 2)
  then 1 else 0

/-- `create_ellipse_mask_with_clip`: filled ellipse (ideal rasterization
with axis clamps), top rows zeroed above the clip line, then feathered by
a Gaussian blur whose kernel comes from the library primitives. -/
def createEllipseMaskWithClip (P : CvPrims) (size : ℕ)
    (scaleX scaleY topClipFrac : ℚ) (featherPx : ℕ) (y x : ℤ) : ℚ :=
  if 0 < featherPx then
    gaussBlur (P.gaussKernel (2 * featherPx + 1)) size
      (ellipseClipped size scaleX scaleY topClipFrac) y x
  else ellipseClipped size scaleX scaleY topClipFrac y x

/-- `create_ring_mask`: grayscale-dilate the 255-quantized inner mask,
rescale to [0,1], subtract the inner mask and clip to [0,1]. -/
def createRingMask (inner : Img) (n : ℕ) (ringWidth : ℕ) (y x : ℤ) : ℚ :=
    clip01 (((dilateQ (fun yy xx => quant255 (inner yy xx)) n ringWidth y x : ℤ) : ℚ) / 255
      - inner y x)

/-- Modelled from the spec: the ring mask as the specification describes
it, with the inner mask binarized (positive values mapped to full
intensity) before the morphological dilation, then the inner mask
subtracted and the result clipped to [0,1]. -/
def createRingMaskBinarized (inner : Img) (n : ℕ) (ringWidth : ℕ) (y x : ℤ) : ℚ :=
    clip01 (((dilateQ (fun yy xx => if 0 < inner yy xx then 255 else 0) n ringWidth y x : ℤ) : ℚ) / 255
      - inner y x)

/-- The ring width used when building the clean-patch bundle:
`int(16 + 10 * coverage)` in `create_clean_patch_with_inpaint`. -/
def ringPxOf (coverage : ℚ) : ℤ := ratTrunc (16 + 10 * coverage)

/-- Mask x-scale used by the pipeline: 0.50 + 0.18 * coverage. -/
def scaleXOf (coverage : ℚ) : ℚ := 1/2 + 9/50 * coverage

/-- Mask y-scale used by the pipeline: 0.44 + 0.14 * coverage. -/
def scaleYOf (coverage : ℚ) : ℚ := 11/25 + 7/50 * coverage

lemma foldl_max_le {B : ℤ} (l : List ℤ) (p : ℤ → Prop) [DecidablePred p]
    (h : ℤ → ℤ) (acc : ℤ) (hacc : acc ≤ B) (hh : ∀ d, p d → h d ≤ B) :
    l.foldl (fun a d => if p d then max a (h d) else a) acc ≤ B := by
  induction l generalizing acc with
  | nil => exact hacc
  | cons d ds ih =>
    rw [List.foldl_cons]
    by_cases hp : p d
    · rw [if_pos hp]
      exact ih _ (max_le hacc (hh d hp))
    · rw [if_neg hp]
      exact ih _ hacc

lemma foldl_max_ge {B : ℤ} (l : List ℤ) (p : ℤ → Prop) [DecidablePred p]
    (h : ℤ → ℤ) (acc : ℤ) (hacc : B ≤ acc) :
    B ≤ l.foldl (fun a d => if p d then max a (h d) else a) acc := by
  induction l generalizing acc with
  | nil => exact hacc
  | cons d ds ih =>
    rw [List.foldl_cons]
    by_cases hp : p d
    · rw [if_pos hp]
      exact ih _ (le_trans hacc (le_max_left _ _))
    · rw [if_neg hp]
      exact ih _ hacc

lemma foldl_preserve_le {α : Type} {B : ℤ} (l : List α) (F : ℤ → α → ℤ)
    (hF : ∀ a d, a ≤ B → F a d ≤ B) (acc : ℤ) (hacc : acc ≤ B) :
    l.foldl F acc ≤ B := by
  induction l generalizing acc with
  | nil => exact hacc
  | cons d ds ih => exact ih _ (hF acc d hacc)

lemma foldl_preserve_ge {α : Type} {B : ℤ} (l : List α) (F : ℤ → α → ℤ)
    (hF : ∀ a d, B ≤ a → B ≤ F a d) (acc : ℤ) (hacc : B ≤ acc) :
    B ≤ l.foldl F acc := by
  induction l generalizing acc with
  | nil => exact hacc
  | cons d ds ih => exact ih _ (hF acc d hacc)

lemma dilateQ_le (g : ℤ → ℤ → ℤ) (n : ℕ) (rw : ℕ) (y x : ℤ) (B : ℤ)
    (h0 : 0 ≤ B)
    (hg : ∀ yy xx, 0 ≤ yy → yy < (n : ℤ) → 0 ≤ xx → xx < (n : ℤ) →
      (yy - y) ^ 2 + (xx - x) ^ 2 ≤ (rw : ℤ) ^ 2 → g yy xx ≤ B) :
    dilateQ g n rw y x ≤ B := by
  rw [dilateQ]
  apply foldl_preserve_le
  · intro a dy ha
    apply foldl_max_le (B := B) _
      (fun dx => dy ^ 2 + dx ^ 2 ≤ (rw : ℤ) ^ 2 ∧ 0 ≤ y + dy ∧ y + dy < (n : ℤ) ∧
        0 ≤ x + dx ∧ x + dx < (n : ℤ)) _ _ ha
    intro dx hp
    apply hg _ _ hp.2.1 hp.2.2.1 hp.2.2.2.1 hp.2.2.2.2
    have := hp.1
    nlinarith [sq_nonneg (dy : ℤ), sq_nonneg (dx : ℤ)]
  · exact h0

lemma dilateQ_nonneg (g : ℤ → ℤ → ℤ) (n : ℕ) (rw : ℕ) (y x : ℤ) :
    0 ≤ dilateQ g n rw y x := by
  rw [dilateQ]
  apply foldl_preserve_ge
  · intro a dy ha
    apply foldl_max_ge _
      (fun dx => dy ^ 2 + dx ^ 2 ≤ (rw : ℤ) ^ 2 ∧ 0 ≤ y + dy ∧ y + dy < (n : ℤ) ∧
        0 ≤ x + dx ∧ x + dx < (n : ℤ)) _ _ ha
  · exact le_refl 0

lemma quant255_le (q : ℚ) (hq : q ≤ 1) : quant255 q ≤ 255 := by
  rw [quant255, ratTrunc]
  split
  · rw [Int.ceil_le]
    push_cast
    nlinarith
  · have h1 : ((Int.floor (q * 255) : ℤ) : ℚ) ≤ q * 255 := Int.floor_le _
    have h2 : q * 255 ≤ 255 := by nlinarith
    exact_mod_cast le_trans h1 h2

lemma clip01_nonpos (q : ℚ) (h : q ≤ 0) : clip01 q = 0 := by
  rw [clip01, max_eq_right h]
  norm_num

lemma ring_zero_of_inner_one (inner : Img) (n rw : ℕ) (y x : ℤ)
    (hb : ∀ yy xx, inner yy xx ≤ 1) (h1 : inner y x = 1) :
    createRingMask inner n rw y x = 0 := by
  rw [createRingMask, h1]
  apply clip01_nonpos
  have hd : dilateQ (fun yy xx => quant255 (inner yy xx)) n rw y x ≤ 255 :=
    dilateQ_le _ n rw y x 255 (by norm_num)
      (fun yy xx _ _ _ _ _ => quant255_le _ (hb yy xx))
  have : ((dilateQ (fun yy xx => quant255 (inner yy xx)) n rw y x : ℤ) : ℚ) ≤ 255 := by
    exact_mod_cast hd
  linarith

/-- The fixed OpenCV separable kernel for ksize 3 at sigma 0. -/
def smallGauss3 : List ℚ := [1/4, 1/2, 1/4]

/-- Concrete library primitives used by counterexamples and witnesses:
trigonometric values at angle 0, the true OpenCV kernel for ksize 3, and
a unit-impulse kernel for other sizes. -/
def cexPrims : CvPrims :=
  { cosQ := fun _ => 1
    sinQ := fun _ => 0
    sqrtQ := fun _ => 0
    bgrToLab := fun v => v
    labToBgr := fun v => v
    gaussKernel := fun k =>
      if k = 3 then smallGauss3
      else List.replicate (k / 2) 0 ++ 1 :: List.replicate (k / 2) 0
    inpaint3 := fun img _ _ => img }

/-- A concrete feathered inner mask: size 8, circular, feather 1 pixel
(kernel [1/4, 1/2, 1/4]), no effective top clip. -/
def innerC2 (y x : ℤ) : ℚ := createEllipseMaskWithClip cexPrims 8 (3/4) (3/4) 2 1 y x

lemma innerC2_at_14 : innerC2 1 4 = 1/2 := by
  simp only [innerC2, createEllipseMaskWithClip, ellipseClipped, cexPrims, smallGauss3]
  norm_num only
  simp only [gaussBlur, blurCol, blurRow, convSum, reflect101]
  simp only [ellipseClipped]
  norm_num [ratTrunc]

lemma innerC2_at_04 : innerC2 0 4 = 1/4 := by
  simp only [innerC2, createEllipseMaskWithClip, ellipseClipped, cexPrims, smallGauss3]
  norm_num only
  simp only [gaussBlur, blurCol, blurRow, convSum, reflect101]
  simp only [ellipseClipped]
  norm_num [ratTrunc]

lemma innerC2_at_24 : innerC2 2 4 = 7/8 := by
  simp only [innerC2, createEllipseMaskWithClip, ellipseClipped, cexPrims, smallGauss3]
  norm_num only
  simp only [gaussBlur, blurCol, blurRow, convSum, reflect101]
  simp only [ellipseClipped]
  norm_num [ratTrunc]

lemma innerC2_at_13 : innerC2 1 3 = 3/8 := by
  simp only [innerC2, createEllipseMaskWithClip, ellipseClipped, cexPrims, smallGauss3]
  norm_num only
  simp only [gaussBlur, blurCol, blurRow, convSum, reflect101]
  simp only [ellipseClipped]
  norm_num [ratTrunc]

lemma innerC2_at_15 : innerC2 1 5 = 3/8 := by
  simp only [innerC2, createEllipseMaskWithClip, ellipseClipped, cexPrims, smallGauss3]
  norm_num only
  simp only [gaussBlur, blurCol, blurRow, convSum, reflect101]
  simp only [ellipseClipped]
  norm_num [ratTrunc]

lemma ringC2_at_14 : createRingMask innerC2 8 1 1 4 = 191/510 := by
  rw [createRingMask]
  have hd : dilateQ (fun yy xx => quant255 (innerC2 yy xx)) 8 1 1 4 = 223 := by
    simp only [dilateQ, seOffsets, intRange, List.foldl_cons, List.foldl_nil]
    norm_num only
    rw [innerC2_at_04, innerC2_at_13, innerC2_at_14, innerC2_at_15, innerC2_at_24]
    norm_num [quant255, ratTrunc]
  rw [hd]
  rw [innerC2_at_14]
  rw [clip01]
  norm_num

lemma ringBinC2_at_14 : createRingMaskBinarized innerC2 8 1 1 4 = 1/2 := by
  rw [createRingMaskBinarized]
  have hd : dilateQ (fun yy xx => if 0 < innerC2 yy xx then 255 else 0) 8 1 1 4 = 255 := by
    simp only [dilateQ, seOffsets, intRange, List.foldl_cons, List.foldl_nil]
    norm_num only
    rw [innerC2_at_04, innerC2_at_13, innerC2_at_14, innerC2_at_15, innerC2_at_24]
    norm_num
  rw [hd]
  rw [innerC2_at_14]
  rw [clip01]
  norm_num

/-- C2 counterexample: for the feathered inner mask `innerC2` (produced by
`create_ellipse_mask_with_clip` with feathering) and ring width 1, the
inner and ring masks overlap at pixel (1,4): the elementwise product is
191/1020, far from zero. -/
theorem mask_ring_overlap_counterexample :
    innerC2 1 4 * createRingMask innerC2 8 1 1 4 ≠ 0 ∧
    (1/10 : ℚ) ≤ innerC2 1 4 * createRingMask innerC2 8 1 1 4 := by
  rw [innerC2_at_14, ringC2_at_14]
  norm_num

lemma convSum_win_zero (f : ℤ → ℚ) (ks : List ℚ) (off : ℤ)
    (h : ∀ t, off ≤ t → t < off + (ks.length : ℤ) → f t = 0) :
    convSum f ks off = 0 := by
  induction ks generalizing off with
  | nil => rfl
  | cons k ks ih =>
    rw [convSum, h off (le_refl off) (by simp only [List.length_cons]; push_cast; omega),
      mul_zero, zero_add]
    apply ih
    intro t h1 h2
    apply h t (by omega)
    simp only [List.length_cons]
    push_cast
    push_cast at h2
    omega

lemma ellipseClipped256_zero (y x : ℤ) (h : y < 76 ∨ 192 < y ∨ x < 52 ∨ 204 < x) :
    ellipseClipped 256 (3/5) (1/2) (4/5) y x = 0 := by
  rcases h with h | h | h | h <;>
    (rw [ellipseClipped]; norm_num [ratTrunc]; intros; omega)

lemma inner256_zero (P : CvPrims) (hk : (P.gaussKernel 31).length = 31) (y x : ℤ)
    (hy : 0 ≤ y) (hy2 : y ≤ 255) (hx : 0 ≤ x) (hx2 : x ≤ 255)
    (hz : y ≤ 60 ∨ 208 ≤ y ∨ x ≤ 36 ∨ 220 ≤ x) :
    createEllipseMaskWithClip P 256 (3/5) (1/2) (4/5) 15 y x = 0 := by
  rw [createEllipseMaskWithClip, if_pos (by norm_num)]
  rw [gaussBlur, blurCol, hk]
  apply convSum_win_zero
  intro t ht1 ht2
  rw [blurRow, hk]
  apply convSum_win_zero
  intro s hs1 hs2
  apply ellipseClipped256_zero
  norm_num at ht2 hs2
  rcases hz with hc | hc | hc | hc
  · left
    rw [reflect101]
    split_ifs <;> omega
  · right; left
    rw [reflect101]
    split_ifs <;> omega
  · right; right; left
    rw [reflect101]
    split_ifs <;> omega
  · right; right; right
    rw [reflect101]
    split_ifs <;> omega

lemma ring256_corner_zero (P : CvPrims) (hk : (P.gaussKernel 31).length = 31)
    (rw_ : ℕ) (hrw : rw_ ≤ 36) (y x : ℤ) (hy : y = 0 ∨ y = 255) (hx : x = 0 ∨ x = 255) :
    createRingMask (createEllipseMaskWithClip P 256 (3/5) (1/2) (4/5) 15) 256 rw_ y x = 0 := by
  rw [createRingMask]
  have hd : dilateQ (fun yy xx =>
      quant255 (createEllipseMaskWithClip P 256 (3/5) (1/2) (4/5) 15 yy xx)) 256 rw_ y x = 0 := by
    apply le_antisymm
    · apply dilateQ_le _ _ _ _ _ 0 (le_refl 0)
      intro yy xx hy1 hy2 hx1 hx2 hwin
      have hb1 : (yy - y) ^ 2 ≤ 1296 := by
        have hrw2 : ((rw_ : ℤ)) ^ 2 ≤ 1296 := by
          have : (rw_ : ℤ) ≤ 36 := by exact_mod_cast hrw
          nlinarith [Int.ofNat_nonneg rw_]
        nlinarith [sq_nonneg (xx - x)]
      have habs : yy - y ≤ 36 ∧ -36 ≤ yy - y := by
        constructor <;> nlinarith [sq_nonneg (yy - y - 36), sq_nonneg (yy - y + 36)]
      have hz : createEllipseMaskWithClip P 256 (3/5) (1/2) (4/5) 15 yy xx = 0 := by
        apply inner256_zero P hk yy xx hy1 (by omega) hx1 (by omega)
        rcases hy with h | h
        · left
          omega
        · right
          left
          omega
      rw [hz]
      norm_num [quant255, ratTrunc]
    · exact dilateQ_nonneg _ _ _ _ _
  rw [hd]
  have hin : createEllipseMaskWithClip P 256 (3/5) (1/2) (4/5) 15 y x = 0 := by
    apply inner256_zero P hk y x (by omega) (by omega) (by omega) (by omega)
    rcases hy with h | h <;> [left; right] <;> omega
  rw [hin]
  rw [clip01]
  norm_num

/-- C2 amended: the inner and ring masks cannot overlap at any pixel where
the (feathered) inner mask is exactly 0 or exactly 1 — overlap is confined
to the feather band; with zero feathering the masks never overlap at all;
and for the default scale constants (0.6, 0.5, clip 0.8, feather 15) on
the 256-patch both masks vanish at all four patch corners for every ring
width up to 36. -/
theorem mask_ring_overlap_amended :
    (∀ (inner : Img) (n rw : ℕ) (y x : ℤ), (∀ yy xx, inner yy xx ≤ 1) →
      (inner y x = 0 ∨ inner y x = 1) →
      inner y x * createRingMask inner n rw y x = 0) ∧
    (∀ (P : CvPrims) (size : ℕ) (sx sy cf : ℚ) (rw : ℕ) (y x : ℤ),
      createEllipseMaskWithClip P size sx sy cf 0 y x *
        createRingMask (createEllipseMaskWithClip P size sx sy cf 0) size rw y x = 0) ∧
    (∀ (P : CvPrims), (P.gaussKernel 31).length = 31 → ∀ (rw : ℕ), rw ≤ 36 →
      ∀ (y x : ℤ), (y = 0 ∨ y = 255) → (x = 0 ∨ x = 255) →
      createEllipseMaskWithClip P 256 (3/5) (1/2) (4/5) 15 y x = 0 ∧
      createRingMask (createEllipseMaskWithClip P 256 (3/5) (1/2) (4/5) 15) 256 rw y x = 0) := by
  have hbin : ∀ (inner : Img) (n rw : ℕ) (y x : ℤ), (∀ yy xx, inner yy xx ≤ 1) →
      (inner y x = 0 ∨ inner y x = 1) →
      inner y x * createRingMask inner n rw y x = 0 := by
    intro inner n rw y x hb hcase
    rcases hcase with h0 | h1
    · rw [h0, zero_mul]
    · rw [ring_zero_of_inner_one inner n rw y x hb h1, mul_zero]
  refine ⟨hbin, ?_, ?_⟩
  · intro P size sx sy cf rw y x
    have hmask : ∀ yy xx, createEllipseMaskWithClip P size sx sy cf 0 yy xx = 0 ∨
        createEllipseMaskWithClip P size sx sy cf 0 yy xx = 1 := by
      intro yy xx
      rw [createEllipseMaskWithClip, if_neg (by norm_num), ellipseClipped]
      split
      · right
        rfl
      · left
        rfl
    have hb : ∀ yy xx, createEllipseMaskWithClip P size sx sy cf 0 yy xx ≤ 1 := by
      intro yy xx
      rcases hmask yy xx with h | h <;> rw [h] <;> norm_num
    exact hbin _ size rw y x hb (hmask y x)
  · intro P hk rw hrw y x hy hx
    have hyb : 0 ≤ y ∧ y ≤ 255 := by rcases hy with h | h <;> omega
    have hxb : 0 ≤ x ∧ x ≤ 255 := by rcases hx with h | h <;> omega
    constructor
    · apply inner256_zero P hk y x hyb.1 hyb.2 hxb.1 hxb.2
      rcases hy with h | h
      · left
        omega
      · right
        left
        omega
    · exact ring256_corner_zero P hk rw hrw y x hy hx

/-- Constant-one inner mask used as witness input. -/
def innerOnes : Img := fun _ _ => 1

theorem mask_ring_overlap_amended_witness :
    innerOnes 0 0 * createRingMask innerOnes 1 0 0 0 = 0 ∧
    createEllipseMaskWithClip cexPrims 256 (3/5) (1/2) (4/5) 15 0 0 = 0 ∧
    createRingMask (createEllipseMaskWithClip cexPrims 256 (3/5) (1/2) (4/5) 15) 256 20 0 0 = 0 := by
  refine ⟨?_, ?_, ?_⟩
  · exact (mask_ring_overlap_amended).1 innerOnes 1 0 0 0 (fun _ _ => le_refl 1) (Or.inr rfl)
  · exact ((mask_ring_overlap_amended).2.2 cexPrims (by decide) 20 (by norm_num)
      0 0 (Or.inl rfl) (Or.inl rfl)).1
  · exact ((mask_ring_overlap_amended).2.2 cexPrims (by decide) 20 (by norm_num)
      0 0 (Or.inl rfl) (Or.inl rfl)).2

/-- C3 counterexample: the ring mask computed by `create_ring_mask` is not
the binarize-then-dilate ring the specification describes: on the
feathered mask `innerC2` they differ at pixel (1,4) (191/510 versus 1/2);
moreover the bundle ring width `int(16 + 10 * coverage)` differs from
16 + 10 * coverage at coverage 1/4. -/
theorem ring_mask_binarized_counterexample :
    createRingMask innerC2 8 1 1 4 ≠ createRingMaskBinarized innerC2 8 1 1 4 ∧
    ((ringPxOf (1/4) : ℚ) ≠ 16 + 10 * (1/4)) := by
  constructor
  · rw [ringC2_at_14, ringBinC2_at_14]
    norm_num
  · rw [ringPxOf, ratTrunc]
    norm_num

/-- C3 amended: `create_ring_mask` dilates the 255-quantized grayscale
inner mask (not a binarized one); on masks that are exactly 0/1-valued the
two constructions agree pointwise, and the bundle ring width is the
integer truncation of 16 + 10 * coverage. -/
theorem ring_mask_spec_amended :
    (∀ (inner : Img) (n rw : ℕ) (y x : ℤ),
      (∀ yy xx, inner yy xx = 0 ∨ inner yy xx = 1) →
      createRingMask inner n rw y x = createRingMaskBinarized inner n rw y x) ∧
    (∀ c : ℚ, 0 ≤ c →
      ((ringPxOf c : ℚ) ≤ 16 + 10 * c ∧ 16 + 10 * c < (ringPxOf c : ℚ) + 1)) := by
  constructor
  · intro inner n rw y x hbin
    rw [createRingMask, createRingMaskBinarized]
    have hg : (fun yy xx => quant255 (inner yy xx)) =
        (fun yy xx => if 0 < inner yy xx then 255 else 0) := by
      funext yy xx
      rcases hbin yy xx with h | h
      · rw [h, if_neg (lt_irrefl 0)]
        norm_num [quant255, ratTrunc]
      · rw [h, if_pos (by norm_num)]
        norm_num [quant255, ratTrunc]
    rw [hg]
  · intro c hc
    have hnn : ¬ (16 + 10 * c < 0) := by
      push_neg
      positivity
    rw [ringPxOf, ratTrunc, if_neg hnn]
    push_cast
    exact ⟨Int.floor_le _, Int.lt_floor_add_one _⟩

/-- A concrete binary mask: a single positive pixel at the origin. -/
def innerBinEx : Img := fun y x => if y = 0 ∧ x = 0 then 1 else 0

theorem ring_mask_spec_amended_witness :
    createRingMask innerBinEx 2 1 0 1 = createRingMaskBinarized innerBinEx 2 1 0 1 ∧
    ((ringPxOf (3/5) : ℚ) ≤ 16 + 10 * (3/5) ∧ 16 + 10 * (3/5) < (ringPxOf (3/5) : ℚ) + 1) := by
  constructor
  · apply (ring_mask_spec_amended).1 innerBinEx 2 1 0 1
    intro yy xx
    by_cases h : yy = 0 ∧ xx = 0
    · right
      rw [innerBinEx, if_pos h]
    · left
      rw [innerBinEx, if_neg h]
  · exact (ring_mask_spec_amended).2 (3/5) (by norm_num)

/-- Clip to [0,255] (`np.clip(v, 0, 255)`). -/
def clip255 (q : ℚ) : ℚ := min (max q 0) 255

/-- Normalized x coordinate `(x / w) * 2 - 1`. -/
def normCoord (n : ℕ) (t : ℤ) : ℚ := (t : ℚ) / n * 2 - 1

/-- The ring support pixels `np.where(ring_mask > 0.5)`, in row-major
order, as (row, column) pairs. -/
def ringSupport (ring : Img) (h w : ℕ) : List (ℤ × ℤ) :=
  (List.range h).bind (fun yy =>
    (List.range w).filterMap (fun xx =>
      if (1 : ℚ)/2 < ring (yy : ℤ) (xx : ℤ) then some ((yy : ℤ), (xx : ℤ)) else none))

/-- Dot product of two rational lists (componentwise, truncating). -/
def dotList (a b : List ℚ) : ℚ := (a.zip b).foldl (fun acc p => acc + p.1 * p.2) 0

/-- Sum of a grid function over an h x w pixel rectangle. -/
def gridSum (h w : ℕ) (g : ℤ → ℤ → ℚ) : ℚ :=
  ((List.range h).map (fun yy =>
    ((List.range w).map (fun xx => g (yy : ℤ) (xx : ℤ))).sum)).sum

/-- `PlaneFitter`: plane-fit shading estimator over the ring support.
Stores the grid shape, the validity flag, the support pixels and the three
rows of the precomputed pseudoinverse of the design matrix [x, y, 1]. -/
structure PlaneFitter where
  h : ℕ
  w : ℕ
  valid : Bool
  ringPts : List (ℤ × ℤ)
  pinvRow0 : List ℚ
  pinvRow1 : List ℚ
  pinvRow2 : List ℚ
  innerMask : Img

/-- `PlaneFitter.__init__`: fewer than 10 ring-support pixels marks the
fitter invalid; otherwise the pseudoinverse rows (A^T A)^{-1} A^T of the
design matrix are precomputed (np.linalg.pinv; the rank-deficient branch,
never exercised by the pipeline masks, is modelled as zero rows). -/
def mkPlaneFitter (ring inner : Img) (h w : ℕ) : PlaneFitter :=
  let pts := ringSupport ring h w
  if pts.length < 10 then
    { h := h, w := w, valid := false, ringPts := [],
      pinvRow0 := [], pinvRow1 := [], pinvRow2 := [], innerMask := inner }
  else
    let xs := pts.map (fun p => normCoord w p.2)
    let ys := pts.map (fun p => normCoord h p.1)
    let g00 := (xs.map (fun v => v * v)).sum
    let g01 := ((xs.zip ys).map (fun p => p.1 * p.2)).sum
    let g02 := xs.sum
    let g11 := (ys.map (fun v => v * v)).sum
    let g12 := ys.sum
    let g22 : ℚ := (pts.length : ℚ)
    match inv3 { m00 := g00, m01 := g01, m02 := g02,
                 m10 := g01, m11 := g11, m12 := g12,
                 m20 := g02, m21 := g12, m22 := g22 } with
    | none =>
      { h := h, w := w, valid := true, ringPts := pts,
        pinvRow0 := List.replicate pts.length 0,
        pinvRow1 := List.replicate pts.length 0,
        pinvRow2 := List.replicate pts.length 0, innerMask := inner }
    | some Gi =>
      { h := h, w := w, valid := true, ringPts := pts,
        pinvRow0 := (xs.zip ys).map (fun p => Gi.m00 * p.1 + Gi.m01 * p.2 + Gi.m02),
        pinvRow1 := (xs.zip ys).map (fun p => Gi.m10 * p.1 + Gi.m11 * p.2 + Gi.m12),
        pinvRow2 := (xs.zip ys).map (fun p => Gi.m20 * p.1 + Gi.m21 * p.2 + Gi.m22),
        innerMask := inner }

/-- `PlaneFitter.estimate_plane`: fit coefficients against the lightness
samples on the ring support and evaluate the plane a*x + b*y + c over the
normalized grid; the zero map when the fitter is invalid. -/
def estimatePlane (f : PlaneFitter) (l : Img) (y x : ℤ) : ℚ :=
  if f.valid = true then
    let ringL := f.ringPts.map (fun p => l p.1 p.2)
    dotList f.pinvRow0 ringL * normCoord f.w x +
      dotList f.pinvRow1 ringL * normCoord f.h y +
      dotList f.pinvRow2 ringL
  else 0

/-- `apply_plane_shading`: an invalid fitter returns the clean patch
unchanged; otherwise the lightness channel is shifted by the difference of
the two fitted planes inside the inner mask, the two chroma channels are
shifted by the difference of their ring-mask means (fixed 10-pixel ring),
and the result is converted back from LAB (patches are square,
side `f.h`). -/
def applyPlaneShading (P : CvPrims) (clean target : Img3) (f : PlaneFitter)
    (inner : Img) (y x : ℤ) : ℚ × ℚ × ℚ :=
  if f.valid = true then
    let cleanL : Img := fun yy xx => (P.bgrToLab (clean yy xx)).1
    let targetL : Img := fun yy xx => (P.bgrToLab (target yy xx)).1
    let cleanA : Img := fun yy xx => (P.bgrToLab (clean yy xx)).2.1
    let targetA : Img := fun yy xx => (P.bgrToLab (target yy xx)).2.1
    let cleanB : Img := fun yy xx => (P.bgrToLab (clean yy xx)).2.2
    let targetB : Img := fun yy xx => (P.bgrToLab (target yy xx)).2.2
    let planeDiff := estimatePlane f targetL y x - estimatePlane f cleanL y x
    let correctedL := clip255 (cleanL y x + planeDiff * inner y x)
    let ring10 : Img := fun yy xx => createRingMask inner f.h 10 yy xx
    let ringSum := gridSum f.h f.w (fun yy xx => ring10 yy xx) + 1/1000000
    let diffA := gridSum f.h f.w (fun yy xx => targetA yy xx * ring10 yy xx) / ringSum -
      gridSum f.h f.w (fun yy xx => cleanA yy xx * ring10 yy xx) / ringSum
    let diffB := gridSum f.h f.w (fun yy xx => targetB yy xx * ring10 yy xx) / ringSum -
      gridSum f.h f.w (fun yy xx => cleanB yy xx * ring10 yy xx) / ringSum
    let correctedA := clip255 (cleanA y x + diffA * inner y x)
    let correctedB := clip255 (cleanB y x + diffB * inner y x)
    P.labToBgr ((Int.floor correctedL : ℚ), (Int.floor correctedA : ℚ),
      (Int.floor correctedB : ℚ))
  else clean y x

/-- C8: fewer than 10 pixels of ring support marks the PlaneFitter
invalid, and shading correction with an invalid fitter returns the input
clean patch unmodified at every pixel (it is a total function: no error is
raised). -/
theorem plane_fitter_invalid_noop (ring inner : Img) (h w : ℕ) (P : CvPrims)
    (clean target : Img3) (hcnt : (ringSupport ring h w).length < 10) :
    (mkPlaneFitter ring inner h w).valid = false ∧
    (∀ y x, applyPlaneShading P clean target (mkPlaneFitter ring inner h w) inner y x =
      clean y x) := by
  have hv : (mkPlaneFitter ring inner h w).valid = false := by
    rw [mkPlaneFitter]
    rw [if_pos hcnt]
  refine ⟨hv, fun y x => ?_⟩
  rw [applyPlaneShading, hv]
  simp

/-- All-zero mask used as witness input. -/
def zeroImg : Img := fun _ _ => 0

/-- Constant colour images used as witness inputs. -/
def cleanEx : Img3 := fun _ _ => (1, 2, 3)

def targetEx : Img3 := fun _ _ => (4, 5, 6)

theorem plane_fitter_invalid_noop_witness :
    (mkPlaneFitter zeroImg zeroImg 2 2).valid = false ∧
    applyPlaneShading cexPrims cleanEx targetEx (mkPlaneFitter zeroImg zeroImg 2 2)
      zeroImg 0 0 = (1, 2, 3) := by
  have hcnt : (ringSupport zeroImg 2 2).length < 10 := by
    have : ringSupport zeroImg 2 2 = [] := by
      rw [ringSupport]
      norm_num [zeroImg]
    rw [this]
    norm_num
  have h := plane_fitter_invalid_noop zeroImg zeroImg 2 2 cexPrims cleanEx targetEx hcnt
  exact ⟨h.1, h.2 0 0⟩

/-- One iteration of the feather loop of `warp_from_norm`: the four
sequential np.minimum updates of row i, row n-1-i, column i, column n-1-i
against i/f collapse into one pointwise minimum. -/
def featherStep (n f : ℕ) (m : Img) (i : ℕ) : Img :=
  fun y x =>
    if y = (i : ℤ) ∨ y = (n : ℤ) - 1 - (i : ℤ) ∨ x = (i : ℤ) ∨ x = (n : ℤ) - 1 - (i : ℤ)
    then min (m y x) ((i : ℚ) / (f : ℚ)) else m y x

/-- The pre-blur feather mask of `warp_from_norm`: all ones, with the
feather loop applied for i = 0..f-1. -/
def featherBase (n f : ℕ) : Img :=
  (List.range f).foldl (featherStep n f) (fun _ _ => 1)

/-- `warp_from_norm`: solve the homography from the normalized corners to
the quad (an unguarded cv2.error propagates as `none`), warp the patch
with it, and warp the blurred feather mask with the same homography,
quantizing the warped mask to uint8. -/
def warpFromNorm (P : CvPrims) (patch : Img3) (quad : Quad) (normSize : ℕ)
    (featherPx : ℕ) : Option (Img3 × (ℤ → ℤ → ℤ)) :=
  (getPerspectiveTransform (getNormCorners normSize) quad).map (fun M =>
    (warpPerspective3 patch M normSize normSize,
     fun y x => quant255 (warpPerspective
       (gaussBlur (P.gaussKernel (2 * featherPx + 1)) normSize (featherBase normSize featherPx))
       M normSize normSize y x)))

/-- The normalized-space blend of `erase_mouth_in_frame`: shade-corrected
clean patch over the normalized patch with the inner mask as alpha, cast
to uint8 (floor of the nonnegative in-range channel values). -/
def blendedPatch (P : CvPrims) (cleanPatch : Img3) (fitter : PlaneFitter)
    (innerMask : Img) (normPatch : Img3) (y x : ℤ) : ℚ × ℚ × ℚ :=
  ((Int.floor ((applyPlaneShading P cleanPatch normPatch fitter innerMask y x).1 * innerMask y x +
      (normPatch y x).1 * (1 - innerMask y x)) : ℚ),
   (Int.floor ((applyPlaneShading P cleanPatch normPatch fitter innerMask y x).2.1 * innerMask y x +
      (normPatch y x).2.1 * (1 - innerMask y x)) : ℚ),
   (Int.floor ((applyPlaneShading P cleanPatch normPatch fitter innerMask y x).2.2 * innerMask y x +
      (normPatch y x).2.2 * (1 - innerMask y x)) : ℚ))

/-- The frame-space composite of `erase_mouth_in_frame`: warped content
over the original frame with the warped quantized mask as alpha, cast to
uint8. -/
def compositeFrame (frame : Img3) (wr : Img3 × (ℤ → ℤ → ℤ)) (y x : ℤ) : ℚ × ℚ × ℚ :=
  ((Int.floor ((wr.1 y x).1 * ((wr.2 y x : ℤ) : ℚ) / 255 +
      (frame y x).1 * (1 - ((wr.2 y x : ℤ) : ℚ) / 255)) : ℚ),
   (Int.floor ((wr.1 y x).2.1 * ((wr.2 y x : ℤ) : ℚ) / 255 +
      (frame y x).2.1 * (1 - ((wr.2 y x : ℤ) : ℚ) / 255)) : ℚ),
   (Int.floor ((wr.1 y x).2.2 * ((wr.2 y x : ℤ) : ℚ) / 255 +
      (frame y x).2.2 * (1 - ((wr.2 y x : ℤ) : ℚ) / 255)) : ℚ))

/-- `erase_mouth_in_frame`: warp the frame to normalized space (a failed
solve is caught and the frame is returned unchanged), shade-correct the
clean patch, blend it over the normalized patch with the inner mask as
alpha, warp the blend back with `warp_from_norm` (whose solve failure is
not guarded and propagates as `none`), and composite over the original
frame with the warped quantized feather mask as alpha. -/
def eraseMouthInFrame (P : CvPrims) (frameH frameW : ℕ) (frame : Img3) (pos : MouthPos)
    (cleanPatch : Img3) (innerMask : Img) (ringMask_ : Img) (fitter : PlaneFitter)
    (refPos_ : MouthPos) : Option Img3 :=
  (warpToNorm frame frameH frameW (getQuadFromPosition P pos (6/5)) 256).elim
    (some frame)
    (fun nm =>
      (warpFromNorm P (fun y x => blendedPatch P cleanPatch fitter innerMask nm.1 y x)
        (getQuadFromPosition P pos (6/5)) 256 20).map
        (fun wr => fun y x => compositeFrame frame wr y x))

/-- Modelled from the spec: `warp_from_norm` as claim C1 describes it,
with the InnerMask itself warped through the same inverse homography as
the colour content to give the frame-space alpha. -/
def warpFromNormInnerAlpha (patch : Img3) (innerMask : Img) (quad : Quad)
    (normSize : ℕ) : Option (Img3 × (ℤ → ℤ → ℤ)) :=
  (getPerspectiveTransform (getNormCorners normSize) quad).map (fun M =>
    (warpPerspective3 patch M normSize normSize,
     fun y x => quant255 (warpPerspective innerMask M normSize normSize y x)))

/-- Modelled from the spec: `erase_mouth_in_frame` as claim C1 describes
it, identical to the code except that the frame-space alpha is the warp of
the InnerMask used for the normalized-space blend. -/
def eraseMouthSpecInner (P : CvPrims) (frameH frameW : ℕ) (frame : Img3) (pos : MouthPos)
    (cleanPatch : Img3) (innerMask : Img) (ringMask_ : Img) (fitter : PlaneFitter)
    (refPos_ : MouthPos) : Option Img3 :=
  (warpToNorm frame frameH frameW (getQuadFromPosition P pos (6/5)) 256).elim
    (some frame)
    (fun nm =>
      (warpFromNormInnerAlpha (fun y x => blendedPatch P cleanPatch fitter innerMask nm.1 y x)
        innerMask (getQuadFromPosition P pos (6/5)) 256).map
        (fun wr => fun y x => compositeFrame frame wr y x))

lemma warpToNorm_none_iff (frame : Img3) (fh fw : ℕ) (quad : Quad) (n : ℕ) :
    warpToNorm frame fh fw quad n = none ↔
      getPerspectiveTransform quad (getNormCorners n) = none := by
  rw [warpToNorm]
  exact Option.map_eq_none'

/-- C9: a frame whose quad makes the (guarded) frame-to-normalized
homography solve fail is returned unchanged, and the per-frame erasure
never propagates a homography-solve failure for any input position: the
unguarded reverse solve inside `warp_from_norm` can only fail on a
point-degenerate square quad, for which the forward solve already failed
and was caught. -/
theorem erase_mouth_never_raises (P : CvPrims) (frameH frameW : ℕ) (frame : Img3)
    (pos : MouthPos) (cleanPatch : Img3) (innerMask ringMask_ : Img)
    (fitter : PlaneFitter) (refPos_ : MouthPos) :
    (getPerspectiveTransform (getQuadFromPosition P pos (6/5)) (getNormCorners 256) = none →
      eraseMouthInFrame P frameH frameW frame pos cleanPatch innerMask ringMask_
        fitter refPos_ = some frame) ∧
    eraseMouthInFrame P frameH frameW frame pos cleanPatch innerMask ringMask_
      fitter refPos_ ≠ none := by
  constructor
  · intro hnone
    have hw : warpToNorm frame frameH frameW (getQuadFromPosition P pos (6/5)) 256 = none :=
      (warpToNorm_none_iff _ _ _ _ _).mpr hnone
    rw [eraseMouthInFrame, hw, Option.elim_none]
  · cases hw : warpToNorm frame frameH frameW (getQuadFromPosition P pos (6/5)) 256 with
    | none =>
      rw [eraseMouthInFrame, hw, Option.elim_none]
      exact fun hcontra => Option.noConfusion hcontra
    | some nm =>
      have hgs : getPerspectiveTransform (getQuadFromPosition P pos (6/5))
          (getNormCorners 256) ≠ none := by
        intro h0
        rw [(warpToNorm_none_iff frame frameH frameW _ 256).mpr h0] at hw
        exact Option.noConfusion hw
      have hne : ¬ (pos.width * (6/5) / 2 *
            (P.cosQ (radiansQ pos.rotation) - P.sinQ (radiansQ pos.rotation)) = 0 ∧
          pos.width * (6/5) / 2 *
            (P.cosQ (radiansQ pos.rotation) + P.sinQ (radiansQ pos.rotation)) = 0) := by
        intro hab
        apply hgs
        rw [getQuad_eq_squareQuad]
        exact (gpt_fwd_none_iff _ _ _ _).mpr hab
      have hrev : getPerspectiveTransform (getNormCorners 256)
          (getQuadFromPosition P pos (6/5)) ≠ none := by
        rw [getQuad_eq_squareQuad, gpt_rev_square _ _ _ _ hne]
        exact fun hcontra => Option.noConfusion hcontra
      rw [eraseMouthInFrame, hw, Option.elim_some]
      intro hcontra
      rcases hwf : warpFromNorm P
          (fun y x => blendedPatch P cleanPatch fitter innerMask nm.1 y x)
          (getQuadFromPosition P pos (6/5)) 256 20 with _ | wr
      · apply hrev
        rw [warpFromNorm] at hwf
        exact Option.map_eq_none'.mp hwf
      · rw [hwf] at hcontra
        exact Option.noConfusion hcontra

theorem erase_mouth_never_raises_witness :
    eraseMouthInFrame cexPrims 4 4 cleanEx ⟨0, 0, 0, 0, 0, 1⟩ cleanEx zeroImg zeroImg
      ⟨4, 4, false, [], [], [], [], zeroImg⟩ ⟨0, 0, 0, 0, 0, 1⟩ = some cleanEx ∧
    eraseMouthInFrame cexPrims 4 4 cleanEx ⟨0, 0, 0, 0, 0, 1⟩ cleanEx zeroImg zeroImg
      ⟨4, 4, false, [], [], [], [], zeroImg⟩ ⟨0, 0, 0, 0, 0, 1⟩ ≠ none := by
  have hnone : getPerspectiveTransform
      (getQuadFromPosition cexPrims ⟨0, 0, 0, 0, 0, 1⟩ (6/5)) (getNormCorners 256) = none := by
    rw [getQuad_eq_squareQuad, gpt_fwd_none_iff]
    constructor <;> norm_num [cexPrims]
  have h := erase_mouth_never_raises cexPrims 4 4 cleanEx ⟨0, 0, 0, 0, 0, 1⟩ cleanEx
    zeroImg zeroImg ⟨4, 4, false, [], [], [], [], zeroImg⟩ ⟨0, 0, 0, 0, 0, 1⟩
  exact ⟨h.1 hnone, h.2⟩

/-- The identity homography. -/
def idMat3 : Mat3 :=
  { m00 := 1, m01 := 0, m02 := 0, m10 := 0, m11 := 1, m12 := 0, m20 := 0, m21 := 0, m22 := 1 }

lemma inv3_id : inv3 idMat3 = some idMat3 := by
  rw [inv3, if_neg (by norm_num [det3Mat, idMat3])]
  norm_num [det3Mat, idMat3, Mat3.mk.injEq]

lemma warpPerspective_id (img : Img) (y x : ℤ) (hy0 : 0 ≤ y) (hy1 : y < 256)
    (hx0 : 0 ≤ x) (hx1 : x < 256) :
    warpPerspective img idMat3 256 256 y x = img y x := by
  have hpp : projPoint idMat3 (x : ℚ) (y : ℚ) = some ((x : ℚ), (y : ℚ)) := by
    rw [projPoint]
    norm_num [idMat3]
  simp only [warpPerspective, inv3_id, hpp]
  rw [bilinearAt]
  simp only [Int.floor_intCast, sub_self]
  norm_num
  intro h
  exact absurd (h hx0 hx1 hy0) (not_le.mpr hy1)

lemma warpPerspective3_id (img : Img3) (y x : ℤ) (hy0 : 0 ≤ y) (hy1 : y < 256)
    (hx0 : 0 ≤ x) (hx1 : x < 256) :
    warpPerspective3 img idMat3 256 256 y x = img y x := by
  rw [warpPerspective3, warpPerspective_id _ y x hy0 hy1 hx0 hx1,
    warpPerspective_id _ y x hy0 hy1 hx0 hx1, warpPerspective_id _ y x hy0 hy1 hx0 hx1]

lemma reflect101_id (n : ℕ) (t : ℤ) (h0 : 0 ≤ t) (h1 : t < (n : ℤ)) :
    reflect101 n t = t := by
  rw [reflect101, if_neg (by omega), if_neg (by omega)]

lemma convSum_append (f : ℤ → ℚ) (k1 k2 : List ℚ) (off : ℤ) :
    convSum f (k1 ++ k2) off = convSum f k1 off + convSum f k2 (off + (k1.length : ℤ)) := by
  induction k1 generalizing off with
  | nil => simp [convSum]
  | cons a t ih =>
    rw [List.cons_append, convSum, convSum, ih (off + 1), List.length_cons]
    have harg : off + 1 + (t.length : ℤ) = off + ((t.length + 1 : ℕ) : ℤ) := by
      push_cast
      ring
    rw [harg]
    ring

lemma convSum_replicate_zero (f : ℤ → ℚ) (m : ℕ) (off : ℤ) :
    convSum f (List.replicate m 0) off = 0 := by
  induction m generalizing off with
  | zero => rfl
  | succ k ih =>
    rw [List.replicate_succ, convSum, ih]
    ring

lemma convSum_delta20 (f : ℤ → ℚ) (off : ℤ) :
    convSum f (List.replicate 20 0 ++ 1 :: List.replicate 20 0) off = f (off + 20) := by
  rw [convSum_append, convSum_replicate_zero, convSum, convSum_replicate_zero]
  simp [List.length_replicate]

lemma cexKernel41 : cexPrims.gaussKernel 41 = List.replicate 20 0 ++ 1 :: List.replicate 20 0 := by
  norm_num [cexPrims]

lemma gaussBlur_cex41 (m : Img) (y x : ℤ) (hy0 : 0 ≤ y) (hy1 : y < 256)
    (hx0 : 0 ≤ x) (hx1 : x < 256) :
    gaussBlur (cexPrims.gaussKernel 41) 256 m y x = m y x := by
  rw [gaussBlur, blurCol, cexKernel41]
  norm_num [List.length_append, List.length_replicate, List.length_cons]
  rw [convSum_delta20]
  have hy' : y - 20 + 20 = y := by ring
  rw [hy']
  show blurRow (List.replicate 20 (0 : ℚ) ++ 1 :: List.replicate 20 0) 256 m
    (reflect101 256 y) x = m y x
  rw [reflect101_id 256 y hy0 (by omega), blurRow]
  norm_num [List.length_append, List.length_replicate, List.length_cons]
  rw [convSum_delta20]
  have hx' : x - 20 + 20 = x := by ring
  rw [hx']
  show m y (reflect101 256 x) = m y x
  rw [reflect101_id 256 x hx0 (by omega)]

lemma featherStep_interior (n f : ℕ) (m : Img) (i : ℕ) (y x : ℤ)
    (hy1 : (f : ℤ) ≤ y) (hy2 : y ≤ (n : ℤ) - 1 - (f : ℤ))
    (hx1 : (f : ℤ) ≤ x) (hx2 : x ≤ (n : ℤ) - 1 - (f : ℤ)) (hi : i < f) :
    featherStep n f m i y x = m y x := by
  rw [featherStep, if_neg]
  push_neg
  refine ⟨?_, ?_, ?_, ?_⟩ <;> omega

lemma featherFold_interior (n f : ℕ) (l : List ℕ) (m : Img) (y x : ℤ)
    (hy1 : (f : ℤ) ≤ y) (hy2 : y ≤ (n : ℤ) - 1 - (f : ℤ))
    (hx1 : (f : ℤ) ≤ x) (hx2 : x ≤ (n : ℤ) - 1 - (f : ℤ))
    (hl : ∀ i ∈ l, i < f) :
    l.foldl (featherStep n f) m y x = m y x := by
  induction l generalizing m with
  | nil => rfl
  | cons a t ih =>
    rw [List.foldl_cons, ih (featherStep n f m a) (fun i hi => hl i (List.mem_cons_of_mem _ hi)),
      featherStep_interior n f m a y x hy1 hy2 hx1 hx2 (hl a (List.mem_cons_self _ _))]

lemma featherBase_interior (n f : ℕ) (y x : ℤ)
    (hy1 : (f : ℤ) ≤ y) (hy2 : y ≤ (n : ℤ) - 1 - (f : ℤ))
    (hx1 : (f : ℤ) ≤ x) (hx2 : x ≤ (n : ℤ) - 1 - (f : ℤ)) :
    featherBase n f y x = 1 := by
  rw [featherBase,
    featherFold_interior n f _ _ y x hy1 hy2 hx1 hx2 (fun i hi => List.mem_range.mp hi)]

/-- A detection whose quad is exactly the normalized square: center
(127.5, 127.5), width 212.5 (so 212.5 * 1.2 = 255), rotation 0. -/
def posIdent : MouthPos := ⟨255/2, 255/2, 425/2, 1, 0, 1⟩

/-- Constant grey frame. -/
def frame100 : Img3 := fun _ _ => (100, 100, 100)

/-- Constant clean patch. -/
def clean200 : Img3 := fun _ _ => (200, 200, 200)

/-- Constant half-intensity inner mask. -/
def innerHalf : Img := fun _ _ => 1/2

/-- An invalid plane fitter (shading correction is then the identity). -/
def fitterInv : PlaneFitter := ⟨256, 256, false, [], [], [], [], innerHalf⟩

lemma quadIdent : getQuadFromPosition cexPrims posIdent (6/5) =
    squareQuad (255/2) (255/2) (255/2) (255/2) := by
  rw [getQuad_eq_squareQuad]
  norm_num [posIdent, cexPrims]

lemma fwdSquareMat_ident : fwdSquareMat (255/2) (255/2) (255/2) (255/2) = idMat3 := by
  rw [fwdSquareMat, idMat3, Mat3.mk.injEq]
  norm_num

lemma revSquareMat_ident : revSquareMat (255/2) (255/2) (255/2) (255/2) = idMat3 := by
  rw [revSquareMat, idMat3, Mat3.mk.injEq]
  norm_num

lemma warpToNorm_ident : warpToNorm frame100 256 256 (getQuadFromPosition cexPrims posIdent (6/5))
    256 = some (warpPerspective3 frame100 idMat3 256 256, idMat3) := by
  rw [warpToNorm, quadIdent, gpt_fwd_square (255/2) (255/2) (255/2) (255/2) (by norm_num),
    Option.map_some', fwdSquareMat_ident]

lemma gptRev_ident : getPerspectiveTransform (getNormCorners 256)
    (getQuadFromPosition cexPrims posIdent (6/5)) = some idMat3 := by
  rw [quadIdent, gpt_rev_square (255/2) (255/2) (255/2) (255/2) (by norm_num), revSquareMat_ident]

lemma aps_invalid (y x : ℤ) :
    applyPlaneShading cexPrims clean200 (warpPerspective3 frame100 idMat3 256 256) fitterInv
      innerHalf y x = (200, 200, 200) := by
  rw [applyPlaneShading]
  norm_num [fitterInv, clean200]

lemma blended_eval (y x : ℤ) (hy0 : 0 ≤ y) (hy1 : y < 256) (hx0 : 0 ≤ x) (hx1 : x < 256) :
    blendedPatch cexPrims clean200 fitterInv innerHalf
      (warpPerspective3 frame100 idMat3 256 256) y x = (150, 150, 150) := by
  have hnm : warpPerspective3 frame100 idMat3 256 256 y x = (100, 100, 100) :=
    (warpPerspective3_id frame100 y x hy0 hy1 hx0 hx1).trans rfl
  rw [blendedPatch, aps_invalid, hnm]
  norm_num [innerHalf]

lemma eraseMouth_eq_of_solves (P : CvPrims) (frameH frameW : ℕ) (frame : Img3) (pos : MouthPos)
    (cleanPatch : Img3) (innerMask ringMask_ : Img) (fitter : PlaneFitter) (refPos_ : MouthPos)
    (nm : Img3 × Mat3) (M : Mat3)
    (hf : warpToNorm frame frameH frameW (getQuadFromPosition P pos (6/5)) 256 = some nm)
    (hr : getPerspectiveTransform (getNormCorners 256) (getQuadFromPosition P pos (6/5)) =
      some M) :
    eraseMouthInFrame P frameH frameW frame pos cleanPatch innerMask ringMask_ fitter refPos_ =
      some (fun y x => compositeFrame frame
        (warpPerspective3 (fun yy xx => blendedPatch P cleanPatch fitter innerMask nm.1 yy xx)
           M 256 256,
         fun yy xx => quant255 (warpPerspective
           (gaussBlur (P.gaussKernel 41) 256 (featherBase 256 20)) M 256 256 yy xx)) y x) := by
  rw [eraseMouthInFrame, hf, Option.elim_some, warpFromNorm, hr, Option.map_some',
    Option.map_some']

lemma eraseMouthSpec_eq_of_solves (P : CvPrims) (frameH frameW : ℕ) (frame : Img3)
    (pos : MouthPos) (cleanPatch : Img3) (innerMask ringMask_ : Img) (fitter : PlaneFitter)
    (refPos_ : MouthPos) (nm : Img3 × Mat3) (M : Mat3)
    (hf : warpToNorm frame frameH frameW (getQuadFromPosition P pos (6/5)) 256 = some nm)
    (hr : getPerspectiveTransform (getNormCorners 256) (getQuadFromPosition P pos (6/5)) =
      some M) :
    eraseMouthSpecInner P frameH frameW frame pos cleanPatch innerMask ringMask_ fitter refPos_ =
      some (fun y x => compositeFrame frame
        (warpPerspective3 (fun yy xx => blendedPatch P cleanPatch fitter innerMask nm.1 yy xx)
           M 256 256,
         fun yy xx => quant255 (warpPerspective innerMask M 256 256 yy xx)) y x) := by
  rw [eraseMouthSpecInner, hf, Option.elim_some, warpFromNormInnerAlpha, hr, Option.map_some',
    Option.map_some']

lemma code_pixel_128 :
    compositeFrame frame100
      (warpPerspective3 (fun yy xx => blendedPatch cexPrims clean200 fitterInv innerHalf
          (warpPerspective3 frame100 idMat3 256 256) yy xx) idMat3 256 256,
       fun yy xx => quant255 (warpPerspective
         (gaussBlur (cexPrims.gaussKernel 41) 256 (featherBase 256 20)) idMat3 256 256 yy xx))
      128 128 = (150, 150, 150) := by
  have hw : warpPerspective3 (fun yy xx => blendedPatch cexPrims clean200 fitterInv innerHalf
      (warpPerspective3 frame100 idMat3 256 256) yy xx) idMat3 256 256 128 128 =
      (150, 150, 150) :=
    (warpPerspective3_id _ 128 128 (by norm_num) (by norm_num) (by norm_num) (by norm_num)).trans
      (blended_eval 128 128 (by norm_num) (by norm_num) (by norm_num) (by norm_num))
  have ha : quant255 (warpPerspective
      (gaussBlur (cexPrims.gaussKernel 41) 256 (featherBase 256 20)) idMat3 256 256 128 128) =
      255 := by
    rw [warpPerspective_id _ 128 128 (by norm_num) (by norm_num) (by norm_num) (by norm_num),
      gaussBlur_cex41 _ 128 128 (by norm_num) (by norm_num) (by norm_num) (by norm_num),
      featherBase_interior 256 20 128 128 (by norm_num) (by norm_num) (by norm_num) (by norm_num)]
    norm_num [quant255, ratTrunc]
  simp only [compositeFrame]
  rw [hw, ha]
  norm_num [frame100]

lemma spec_pixel_128 :
    compositeFrame frame100
      (warpPerspective3 (fun yy xx => blendedPatch cexPrims clean200 fitterInv innerHalf
          (warpPerspective3 frame100 idMat3 256 256) yy xx) idMat3 256 256,
       fun yy xx => quant255 (warpPerspective innerHalf idMat3 256 256 yy xx))
      128 128 = (124, 124, 124) := by
  have hw : warpPerspective3 (fun yy xx => blendedPatch cexPrims clean200 fitterInv innerHalf
      (warpPerspective3 frame100 idMat3 256 256) yy xx) idMat3 256 256 128 128 =
      (150, 150, 150) :=
    (warpPerspective3_id _ 128 128 (by norm_num) (by norm_num) (by norm_num) (by norm_num)).trans
      (blended_eval 128 128 (by norm_num) (by norm_num) (by norm_num) (by norm_num))
  have ha : quant255 (warpPerspective innerHalf idMat3 256 256 128 128) = 127 := by
    rw [warpPerspective_id _ 128 128 (by norm_num) (by norm_num) (by norm_num) (by norm_num)]
    norm_num [innerHalf, quant255, ratTrunc]
  simp only [compositeFrame]
  rw [hw, ha]
  norm_num [frame100]

/-- C1 counterexample: with an invalid fitter, a constant 100-grey frame,
a constant 200-grey clean patch, a constant 1/2 inner mask and a detection
whose quad is exactly the normalized square (all homographies are the
identity), the code composites pixel (128,128) to 150 (the warped feather
mask is 1 there, so alpha is 255/255), while compositing with the warped
InnerMask, as the spec describes, would give floor(150*127/255 +
100*128/255) = 124: the mask warped back to frame space is not the
InnerMask. -/
theorem warp_inner_alpha_counterexample :
    Option.map (fun img => img 128 128)
      (eraseMouthInFrame cexPrims 256 256 frame100 posIdent clean200 innerHalf zeroImg
        fitterInv posIdent) = some ((150 : ℚ), (150 : ℚ), (150 : ℚ)) ∧
    Option.map (fun img => img 128 128)
      (eraseMouthSpecInner cexPrims 256 256 frame100 posIdent clean200 innerHalf zeroImg
        fitterInv posIdent) = some ((124 : ℚ), (124 : ℚ), (124 : ℚ)) := by
  constructor
  · rw [eraseMouth_eq_of_solves cexPrims 256 256 frame100 posIdent clean200 innerHalf zeroImg
      fitterInv posIdent (warpPerspective3 frame100 idMat3 256 256, idMat3) idMat3
      warpToNorm_ident gptRev_ident, Option.map_some']
    exact congrArg some code_pixel_128
  · rw [eraseMouthSpec_eq_of_solves cexPrims 256 256 frame100 posIdent clean200 innerHalf zeroImg
      fitterInv posIdent (warpPerspective3 frame100 idMat3 256 256, idMat3) idMat3
      warpToNorm_ident gptRev_ident, Option.map_some']
    exact congrArg some spec_pixel_128

/-- C1 (amended): whenever the forward warp succeeds with normalized
patch `nm` and the reverse solve yields `M`, the frame result composites
the warped blended patch over the original frame as
floor(warped*alpha + original*(1-alpha)), where the frame-space alpha is
the uint8 quantization of the warp of the Gaussian-blurred 20-pixel
feather box mask built inside `warp_from_norm` - a mask independent of
the InnerMask - not the warp of the InnerMask itself. -/
theorem erase_mouth_feather_alpha (P : CvPrims) (frameH frameW : ℕ) (frame : Img3)
    (pos : MouthPos) (cleanPatch : Img3) (innerMask ringMask_ : Img) (fitter : PlaneFitter)
    (refPos_ : MouthPos) (nm : Img3 × Mat3) (M : Mat3)
    (hf : warpToNorm frame frameH frameW (getQuadFromPosition P pos (6/5)) 256 = some nm)
    (hr : getPerspectiveTransform (getNormCorners 256) (getQuadFromPosition P pos (6/5)) =
      some M) :
    eraseMouthInFrame P frameH frameW frame pos cleanPatch innerMask ringMask_ fitter refPos_ =
      some (fun y x => compositeFrame frame
        (warpPerspective3 (fun yy xx => blendedPatch P cleanPatch fitter innerMask nm.1 yy xx)
           M 256 256,
         fun yy xx => quant255 (warpPerspective
           (gaussBlur (P.gaussKernel 41) 256 (featherBase 256 20)) M 256 256 yy xx)) y x) :=
  eraseMouth_eq_of_solves P frameH frameW frame pos cleanPatch innerMask ringMask_ fitter
    refPos_ nm M hf hr

theorem erase_mouth_feather_alpha_witness :
    eraseMouthInFrame cexPrims 256 256 frame100 posIdent clean200 innerHalf zeroImg fitterInv
      posIdent =
      some (fun y x => compositeFrame frame100
        (warpPerspective3 (fun yy xx => blendedPatch cexPrims clean200 fitterInv innerHalf
            (warpPerspective3 frame100 idMat3 256 256) yy xx) idMat3 256 256,
         fun yy xx => quant255 (warpPerspective
           (gaussBlur (cexPrims.gaussKernel 41) 256 (featherBase 256 20)) idMat3 256 256 yy xx))
        y x) :=
  erase_mouth_feather_alpha cexPrims 256 256 frame100 posIdent clean200 innerHalf zeroImg
    fitterInv posIdent (warpPerspective3 frame100 idMat3 256 256, idMat3) idMat3
    warpToNorm_ident gptRev_ident

/-- `cv2.cvtColor(..., cv2.COLOR_BGR2GRAY)` on a BGR triple:
0.299 R + 0.587 G + 0.114 B. -/
def grayOf (v : ℚ × ℚ × ℚ) : ℚ := 299/1000 * v.2.2 + 587/1000 * v.2.1 + 114/1000 * v.1

/-- `cv2.Sobel(gray, cv2.CV_32F, 1, 0, ksize=3)` at one pixel of an n x n
grid with BORDER_REFLECT_101. -/
def sobelX3 (n : ℕ) (m : Img) (y x : ℤ) : ℚ :=
  (m (reflect101 n (y - 1)) (reflect101 n (x + 1)) + 2 * m (reflect101 n y) (reflect101 n (x + 1))
      + m (reflect101 n (y + 1)) (reflect101 n (x + 1)))
    - (m (reflect101 n (y - 1)) (reflect101 n (x - 1))
      + 2 * m (reflect101 n y) (reflect101 n (x - 1))
      + m (reflect101 n (y + 1)) (reflect101 n (x - 1)))

/-- `cv2.Sobel(gray, cv2.CV_32F, 0, 1, ksize=3)` at one pixel of an n x n
grid with BORDER_REFLECT_101. -/
def sobelY3 (n : ℕ) (m : Img) (y x : ℤ) : ℚ :=
  (m (reflect101 n (y + 1)) (reflect101 n (x - 1)) + 2 * m (reflect101 n (y + 1)) (reflect101 n x)
      + m (reflect101 n (y + 1)) (reflect101 n (x + 1)))
    - (m (reflect101 n (y - 1)) (reflect101 n (x - 1))
      + 2 * m (reflect101 n (y - 1)) (reflect101 n x)
      + m (reflect101 n (y - 1)) (reflect101 n (x + 1)))

/-- The score of one sampled frame in `find_best_reference_frame` given
its normalized patch: 0.1 * height + 0.5 * (masked mean Sobel gradient
magnitude) + 0.01 * (variance of the LAB lightness over the pixels where
the inner mask exceeds 0.5; 0 when there are none, matching the
`len(l_values) > 0` guard; np.var is the population variance
E[x^2] - (E[x])^2). -/
def scoreOf (P : CvPrims) (npatch : Img3) (pos : MouthPos) (coverage : ℚ) : ℚ :=
  let inner : Img := fun yy xx =>
    createEllipseMaskWithClip P 256 (scaleXOf coverage) (scaleYOf coverage) (4/5) 15 yy xx
  let gray : Img := fun yy xx => grayOf (npatch yy xx)
  let gradient : Img := fun yy xx =>
    P.sqrtQ (sobelX3 256 gray yy xx ^ 2 + sobelY3 256 gray yy xx ^ 2)
  let innerSum := gridSum 256 256 (fun yy xx => inner yy xx) + 1/1000000
  let gradientEnergy := gridSum 256 256 (fun yy xx => gradient yy xx * inner yy xx) / innerSum
  let labL : Img := fun yy xx => (P.bgrToLab (npatch yy xx)).1
  let cnt := gridSum 256 256 (fun yy xx => if 1/2 < inner yy xx then 1 else 0)
  let lsum := gridSum 256 256 (fun yy xx => if 1/2 < inner yy xx then labL yy xx else 0)
  let lsq := gridSum 256 256 (fun yy xx => if 1/2 < inner yy xx then labL yy xx ^ 2 else 0)
  let variance := if cnt = 0 then 0 else lsq / cnt - (lsum / cnt) ^ 2
  pos.height * (1/10) + gradientEnergy * (1/2) + variance * (1/100)

/-- The loop body of `find_best_reference_frame` for index i, as the
optional score it contributes: `none` when the confidence check fails
(`continue`) or the warp raises (`except cv2.error: continue`), otherwise
the score of the warped patch. -/
def frameScoreAt (P : CvPrims) (frameH frameW : ℕ) (frames : List Img3)
    (positions : List MouthPos) (coverage : ℚ) (i : ℕ) : Option ℚ :=
  if (positions.getD i default).confidence < 1/2 then none
  else
    (warpToNorm (frames.getD i (fun _ _ => (0, 0, 0))) frameH frameW
      (getQuadFromPosition P (positions.getD i default) (6/5)) 256).map
      (fun nm => scoreOf P nm.1 (positions.getD i default) coverage)

/-- One iteration of the best-score tracking of
`find_best_reference_frame`: `none` as the running best models the
initial `float("inf")`, and the update fires on strict `<` only. -/
def bestStep (fs : ℕ → Option ℚ) (st : ℕ × Option ℚ) (i : ℕ) : ℕ × Option ℚ :=
  match fs i with
  | none => st
  | some s =>
    match st.2 with
    | none => (i, some s)
    | some b => if s < b then (i, some s) else st

/-- `range(0, total, step)` for step > 0. -/
def strideIndices (total step : ℕ) : List ℕ :=
  (List.range ((total + step - 1) / step)).map (fun k => k * step)

/-- `find_best_reference_frame`. -/
def findBestReferenceFrame (P : CvPrims) (frameH frameW : ℕ) (frames : List Img3)
    (positions : List MouthPos) (coverage : ℚ) (sampleCount : ℕ) : ℕ :=
  ((strideIndices frames.length (max 1 (frames.length / sampleCount))).foldl
    (bestStep (frameScoreAt P frameH frameW frames positions coverage)) (0, none)).1

/-- Invariant of the best-score fold over the already-visited index list
`dom`: a running best of `none` means nothing scored yet, and a running
best of `some s` is a visited index whose score s is minimal so far. -/
def FbrfInv (fs : ℕ → Option ℚ) (dom : List ℕ) : ℕ × Option ℚ → Prop
  | (_, none) => ∀ i ∈ dom, fs i = none
  | (b, some s) => (b ∈ dom ∧ fs b = some s) ∧ ∀ i ∈ dom, ∀ t, fs i = some t → s ≤ t

lemma bestFold_none (fs : ℕ → Option ℚ) (l : List ℕ) (st : ℕ × Option ℚ)
    (h : ∀ i ∈ l, fs i = none) : l.foldl (bestStep fs) st = st := by
  induction l generalizing st with
  | nil => rfl
  | cons a t ih =>
    rw [List.foldl_cons]
    have ha := h a (List.mem_cons_self a t)
    have hstep : bestStep fs st a = st := by
      simp [bestStep, ha]
    rw [hstep]
    exact ih st (fun i hi => h i (List.mem_cons_of_mem _ hi))

lemma bestStep_inv (fs : ℕ → Option ℚ) (dom : List ℕ) (st : ℕ × Option ℚ) (a : ℕ)
    (h : FbrfInv fs dom st) : FbrfInv fs (dom ++ [a]) (bestStep fs st a) := by
  obtain ⟨b, ob⟩ := st
  rcases hfa : fs a with _ | s
  · have hstep : bestStep fs (b, ob) a = (b, ob) := by
      simp [bestStep, hfa]
    rw [hstep]
    rcases ob with _ | sb
    · simp only [FbrfInv] at h ⊢
      intro i hi
      rcases List.mem_append.mp hi with hd | ha2
      · exact h i hd
      · rw [List.mem_singleton.mp ha2]
        exact hfa
    · simp only [FbrfInv] at h ⊢
      refine ⟨⟨List.mem_append_left _ h.1.1, h.1.2⟩, ?_⟩
      intro i hi t ht
      rcases List.mem_append.mp hi with hd | ha2
      · exact h.2 i hd t ht
      · rw [List.mem_singleton.mp ha2] at ht
        rw [hfa] at ht
        exact absurd ht (by simp)
  · rcases ob with _ | sb
    · have hstep : bestStep fs (b, none) a = (a, some s) := by
        simp [bestStep, hfa]
      rw [hstep]
      simp only [FbrfInv] at h ⊢
      refine ⟨⟨List.mem_append_right _ (List.mem_singleton_self a), hfa⟩, ?_⟩
      intro i hi t ht
      rcases List.mem_append.mp hi with hd | ha2
      · rw [h i hd] at ht
        exact absurd ht (by simp)
      · rw [List.mem_singleton.mp ha2] at ht
        rw [hfa] at ht
        exact le_of_eq (Option.some.inj ht)
    · by_cases hlt : s < sb
      · have hstep : bestStep fs (b, some sb) a = (a, some s) := by
          simp [bestStep, hfa, hlt]
        rw [hstep]
        simp only [FbrfInv] at h ⊢
        refine ⟨⟨List.mem_append_right _ (List.mem_singleton_self a), hfa⟩, ?_⟩
        intro i hi t ht
        rcases List.mem_append.mp hi with hd | ha2
        · exact le_of_lt (lt_of_lt_of_le hlt (h.2 i hd t ht))
        · rw [List.mem_singleton.mp ha2] at ht
          rw [hfa] at ht
          exact le_of_eq (Option.some.inj ht)
      · have hstep : bestStep fs (b, some sb) a = (b, some sb) := by
          simp [bestStep, hfa, hlt]
        rw [hstep]
        simp only [FbrfInv] at h ⊢
        refine ⟨⟨List.mem_append_left _ h.1.1, h.1.2⟩, ?_⟩
        intro i hi t ht
        rcases List.mem_append.mp hi with hd | ha2
        · exact h.2 i hd t ht
        · rw [List.mem_singleton.mp ha2] at ht
          rw [hfa] at ht
          rw [← Option.some.inj ht]
          exact le_of_not_lt hlt

lemma bestFold_inv (fs : ℕ → Option ℚ) (l : List ℕ) (dom : List ℕ) (st : ℕ × Option ℚ)
    (h : FbrfInv fs dom st) : FbrfInv fs (dom ++ l) (l.foldl (bestStep fs) st) := by
  induction l generalizing dom st with
  | nil => simpa using h
  | cons a t ih =>
    rw [List.foldl_cons]
    have h2 := ih (dom ++ [a]) (bestStep fs st a) (bestStep_inv fs dom st a h)
    simpa [List.append_assoc] using h2

/-- C7: `find_best_reference_frame` samples the frame indices at stride
max(1, totalFrames/20); a sampled frame contributes a score exactly when
its confidence is at least 0.5 and the scale-1.2 warp to normalized space
succeeds (otherwise it is skipped without aborting); if no sampled frame
qualifies the returned index is 0; and whenever some sampled frame
qualifies, the returned index is a sampled frame whose score is minimal
among all qualifying sampled frames. -/
theorem find_best_reference_frame_spec (P : CvPrims) (frameH frameW : ℕ)
    (frames : List Img3) (positions : List MouthPos) (coverage : ℚ) :
    (∀ i, frameScoreAt P frameH frameW frames positions coverage i = none ↔
      ((positions.getD i default).confidence < 1/2 ∨
        warpToNorm (frames.getD i (fun _ _ => (0, 0, 0))) frameH frameW
          (getQuadFromPosition P (positions.getD i default) (6/5)) 256 = none)) ∧
    ((∀ i ∈ strideIndices frames.length (max 1 (frames.length / 20)),
        frameScoreAt P frameH frameW frames positions coverage i = none) →
      findBestReferenceFrame P frameH frameW frames positions coverage 20 = 0) ∧
    (∀ j ∈ strideIndices frames.length (max 1 (frames.length / 20)), ∀ t,
      frameScoreAt P frameH frameW frames positions coverage j = some t →
      ∃ s, findBestReferenceFrame P frameH frameW frames positions coverage 20 ∈
          strideIndices frames.length (max 1 (frames.length / 20)) ∧
        frameScoreAt P frameH frameW frames positions coverage
          (findBestReferenceFrame P frameH frameW frames positions coverage 20) = some s ∧
        s ≤ t) := by
  refine ⟨?_, ?_, ?_⟩
  · intro i
    rw [frameScoreAt]
    by_cases hc : (positions.getD i default).confidence < 1/2
    · rw [if_pos hc]
      constructor
      · intro _
        exact Or.inl hc
      · intro _
        rfl
    · rw [if_neg hc, Option.map_eq_none']
      constructor
      · intro h
        exact Or.inr h
      · intro h
        rcases h with h | h
        · exact absurd h hc
        · exact h
  · intro hall
    rw [findBestReferenceFrame, bestFold_none _ _ _ hall]
  · intro j hj t ht
    have hinv := bestFold_inv (frameScoreAt P frameH frameW frames positions coverage)
      (strideIndices frames.length (max 1 (frames.length / 20))) [] (0, none)
      (by intro i hi; exact absurd hi (List.not_mem_nil i))
    rw [List.nil_append] at hinv
    rcases hres : (strideIndices frames.length (max 1 (frames.length / 20))).foldl
        (bestStep (frameScoreAt P frameH frameW frames positions coverage)) (0, none)
      with ⟨b, ob⟩
    rw [hres] at hinv
    rcases ob with _ | s
    · exact absurd ht (by rw [hinv j hj]; simp)
    · refine ⟨s, ?_, ?_, hinv.2 j hj t ht⟩
      · rw [findBestReferenceFrame, hres]
        exact hinv.1.1
      · rw [findBestReferenceFrame, hres]
        exact hinv.1.2

theorem find_best_reference_frame_spec_witness :
    findBestReferenceFrame cexPrims 4 4 [frame100] [⟨0, 0, 0, 0, 0, 0⟩] (3/5) 20 = 0 := by
  apply (find_best_reference_frame_spec cexPrims 4 4 [frame100] [⟨0, 0, 0, 0, 0, 0⟩] (3/5)).2.1
  intro i hi
  have hlist : strideIndices (List.length [frame100])
      (max 1 (List.length [frame100] / 20)) = [0] := by decide
  rw [hlist] at hi
  rw [List.mem_singleton.mp hi]
  have hpos : (List.getD [(⟨0, 0, 0, 0, 0, 0⟩ : MouthPos)] 0 default).confidence < 1/2 := by
    norm_num [List.getD_cons_zero]
  rw [frameScoreAt, if_pos hpos]
